import Mathlib

/-! Client selectors of the rpct RPC framework.

A shallow embedding of the four client selectors of the `clientselector`
package (`direct_selector.go`, `etcd_selector.go`, `zookeeper_selector.go`,
`consul_selector.go`) and theorems about them.

Conventions of the embedding.

* A method that mutates its receiver becomes a function from the receiver's
  value to its new value.  A Go run-time panic is an explicit result; the
  receiver's value at the point of the panic is kept, because assignments made
  before a panic stay visible to whoever recovers from it.
* Go `int` values are `Int`.  The only arithmetic is `currentServer + 1` and
  `%`; on the selectors the theorems cover the cursor lies below a slice
  length, so the 64-bit addition does not wrap.  `%` is Go's truncated
  remainder, `Int.tmod`, and a zero divisor is a panic.
* Slices of pointers are lists of values; a nil entry is modelled only where
  the code creates one (the `Servers` of the Consul constructor).
* The draw of `rand.Rand` is an input: a call that may draw takes the raw
  natural number `r` the source produces, and `Intn n` reduces it into `[0, n)`.
* The registry replies (etcd `KeysAPI.Get`, ZooKeeper `Children`/`Get`, Consul
  `Agent.Services`) are inputs of the refresh functions.
* The connection factory `src.NewDirectRPCClient`, the default hash
  `JumpConsistentHash`, `url.ParseQuery` and `strconv.Atoi` are fields of `Env`;
  every general theorem holds for all of them.  `goEnv` supplies models of the
  two standard-library functions for evaluating concrete inputs.
-/

namespace Rpct

/-! ## Go run-time helpers -/

/-- Run-time panics the selector code can raise. -/
inductive GoPanic where
  | indexOutOfRange
  | sliceBounds
  | divideByZero
  | nilDereference
  | invalidArgument
  | explicit
  deriving DecidableEq, Repr

/-- Slice indexing `xs[i]` with a Go `int` index: `none` stands for the
index-out-of-range panic. -/
def goIndex {α : Type} (xs : List α) (i : Int) : Option α :=
  if 0 ≤ i then xs[i.toNat]? else none

/-- The call `rnd.Intn(n)` on the raw draw `r`: it panics (`none`) when
`n <= 0` and otherwise yields a value of `[0, n)`. -/
def Intn (n : Int) (r : Nat) : Option Int :=
  if n ≤ 0 then none else some ((r : Int) % n)

/-- The expression `append(xs[0:k], xs[k+1:]...)`: entry `k` is dropped; the
slice expression `xs[k+1:]` panics (`none`) unless `k + 1 <= len(xs)`. -/
def removeAt {α : Type} (xs : List α) (k : Nat) : Option (List α) :=
  if k + 1 ≤ xs.length then some (xs.take k ++ xs.drop (k + 1)) else none

namespace strings

/-- Go `strings.HasPrefix`. -/
def HasPrefix (s pre : String) : Bool :=
  pre.data.isPrefixOf s.data

/-- Go `strings.TrimPrefix`: `s` without the leading `pre`, or `s` itself. -/
def TrimPrefix (s pre : String) : String :=
  if HasPrefix s pre then String.mk (s.data.drop pre.data.length) else s

/-- Splitting a character list at every occurrence of `sep`. -/
def splitChars (sep : Char) : List Char → List (List Char)
  | [] => [[]]
  | c :: cs =>
    match splitChars sep cs with
    | [] => [[]]
    | h :: t => if c = sep then [] :: h :: t else (c :: h) :: t

/-- Go `strings.Split(s, sep)` for a one-character separator. -/
def Split (s : String) (sep : Char) : List String :=
  (splitChars sep s.data).map String.mk

end strings

/-! ## Types of the `src` package used by the selectors -/

namespace src

/-- Modelled from the spec: the selector configuration enum `src.SelectMode`,
whose declaration is not among the sources.  The four recognised options are
those of spec section 6; `other` stands for every further value of the
underlying integer type. -/
inductive SelectMode where
  | RandomSelect
  | RoundRobin
  | ConsistentHash
  | WeightedRoundRobin
  | other (code : Nat)
  deriving DecidableEq, Repr

end src

/-- A value passed in the variadic `options ...interface{}` of `Select`. -/
inductive Opt where
  | atom (v : String)
  | slice (vs : List Opt)

/-- The type `HashServiceAndArgs`: `func(len int, options ...interface{}) int`. -/
abbrev HashFn := Int → List Opt → Int

/-- A connection handle (`*rpc.Client`). -/
abbrev Conn := Nat

/-- Parsed query values (`url.Values`), in order of appearance. -/
abbrev Values := List (String × String)

/-- Go `Values.Get`: the first value of the key, or the empty string. -/
def Values.Get (v : Values) (key : String) : String :=
  match v.find? (fun p => p.1 = key) with
  | some p => p.2
  | none => ""

/-- The collaborators of the selectors that are not part of the package. -/
structure Env where
  /-- The connection factory `src.NewDirectRPCClient` on network and address. -/
  dial : String → String → Except String Conn
  /-- The default hash `JumpConsistentHash`. -/
  jumpHash : HashFn
  /-- Go `url.ParseQuery`; `none` when it reports an error. -/
  parseQuery : String → Option Values
  /-- Go `strconv.Atoi`: the returned integer and whether an error came with it. -/
  atoi : String → Int × Bool

/-- The errors `Select` returns. -/
inductive SelectError where
  | noAvailableService
  | notSupported (sm : src.SelectMode)
  | dialFailed (msg : String)
  deriving DecidableEq, Repr

/-- How a call of `Select` ends. -/
inductive Ret where
  | client (c : Conn)
  | error (e : SelectError)
  | panicked (p : GoPanic)
  deriving DecidableEq, Repr

/-- Result of one `Select` call on a selector of type `σ`: the selector
afterwards, the calls made to the connection factory, and how the call ended. -/
structure Out (σ : Type) where
  state : σ
  dialed : List (String × String)
  ret : Ret

/-- Result of a refresh on a selector of type `σ`: the selector afterwards and
the panic that stopped the refresh, if any. -/
structure Step (σ : Type) where
  state : σ
  panicked : Option GoPanic

/-- The tail `return src.NewDirectRPCClient(s.Client, clientCodecFunc, network,
address, s.dailTimeout)` of a `Select` branch. -/
def connect {σ : Type} (env : Env) (s : σ) (network address : String) : Out σ :=
  { state := s
    dialed := [(network, address)]
    ret := match env.dial network address with
      | .ok c => .client c
      | .error e => .error (.dialFailed e) }

/-- The tail `ss := strings.Split(server, "@"); return
src.NewDirectRPCClient(..., ss[0], ss[1], ...)` of the registry-backed
selectors; `ss[1]` panics when the peer string holds no `@`. -/
def connectPeer {σ : Type} (env : Env) (s : σ) (server : String) : Out σ :=
  match strings.Split server '@' with
  | n :: a :: _ => connect env s n a
  | _ => { state := s, dialed := [], ret := .panicked .indexOutOfRange }

/-! ## Weighted selection engine -/

/-- Modelled from the spec: the `Weighted` record (`WeightedPeer` of spec
section 3), whose declaration is not among the sources: a peer with its
configured weight, its effective weight and the current-weight counter. -/
structure Weighted (α : Type) where
  Server : α
  Weight : Int
  EffectiveWeight : Int
  CurrentWeight : Int
  deriving DecidableEq, Repr

/-- Position and value of the maximum current weight (the first one among
equals); `none` on the empty sequence. -/
def maxCurrent {α : Type} : List (Weighted α) → Option (Nat × Int)
  | [] => none
  | w :: ws =>
    match maxCurrent ws with
    | some (j, c) => if c > w.CurrentWeight then some (j + 1, c) else some (0, w.CurrentWeight)
    | none => some (0, w.CurrentWeight)

/-- Modelled from the spec: `nextWeighted`, which is not among the sources.
Spec section 4.4: increase every peer's current weight by its effective
weight; pick the peer with the maximum current weight; subtract the sum of all
effective weights from the winner's current weight.  The result is the updated
sequence with the winner, or `none` (a nil winner) on the empty sequence. -/
def nextWeighted {α : Type} (servers : List (Weighted α)) :
    Option (List (Weighted α) × Weighted α) :=
  let total := (servers.map (fun w => w.EffectiveWeight)).sum
  let raised := servers.map (fun w => { w with CurrentWeight := w.CurrentWeight + w.EffectiveWeight })
  match maxCurrent raised with
  | none => none
  | some (j, c) =>
    match raised[j]? with
    | none => none
    | some w =>
      let best := { w with CurrentWeight := c - total }
      some (raised.set j best, best)

/-! ## The static selector (`direct_selector.go`) -/

/-- A statically configured peer. -/
structure ServerPeer where
  Network : String
  Address : String
  Weight : Int
  deriving DecidableEq, Repr

/-- The selector over a fixed peer list.  The fields `rnd` and `Client` are
left out: the draw is an input of the calls and the client handle is only
passed through to the connection factory. -/
structure MultiClientSelector where
  Servers : List ServerPeer
  WeightedServers : List (Weighted ServerPeer)
  SelectMode : src.SelectMode
  dailTimeout : Nat
  currentServer : Int
  len : Int
  HashServiceAndArgs : Option HashFn

/-- The constructor; `r` is the draw of `s.rnd.Intn(s.len)`, which panics on an
empty peer list. -/
def NewMultiClientSelector (servers : List ServerPeer) (sm : src.SelectMode)
    (dailTimeout : Nat) (r : Nat) : Except GoPanic MultiClientSelector :=
  let s : MultiClientSelector :=
    { Servers := servers
      WeightedServers := []
      SelectMode := sm
      dailTimeout := dailTimeout
      currentServer := 0
      len := servers.length
      HashServiceAndArgs := none }
  let s : MultiClientSelector :=
    if sm = .WeightedRoundRobin then
      { s with
        WeightedServers := s.Servers.map (fun ss =>
          { Server := ss, Weight := ss.Weight, EffectiveWeight := ss.Weight, CurrentWeight := 0 }) }
    else s
  match Intn s.len r with
  | none => .error .invalidArgument
  | some i => .ok { s with currentServer := i }

namespace MultiClientSelector

/-- The method `SetSelectMode`. -/
def SetSelectMode (s : MultiClientSelector) (sm : src.SelectMode) : MultiClientSelector :=
  { s with SelectMode := sm }

/-- The step `peer := s.Servers[s.currentServer]` followed by the factory call. -/
def dialCurrent (env : Env) (s : MultiClientSelector) : Out MultiClientSelector :=
  match goIndex s.Servers s.currentServer with
  | none => { state := s, dialed := [], ret := .panicked .indexOutOfRange }
  | some peer => connect env s peer.Network peer.Address

/-- The method `Select`; `r` is the draw the random source yields if asked. -/
def Select (env : Env) (s : MultiClientSelector) (options : List Opt) (r : Nat) :
    Out MultiClientSelector :=
  if s.len = 0 then
    { state := s, dialed := [], ret := .error .noAvailableService }
  else if s.SelectMode = .RandomSelect then
    match Intn s.len r with
    | none => { state := s, dialed := [], ret := .panicked .invalidArgument }
    | some i => dialCurrent env { s with currentServer := i }
  else if s.SelectMode = .RoundRobin then
    dialCurrent env { s with currentServer := (s.currentServer + 1).tmod s.len }
  else if s.SelectMode = .ConsistentHash then
    let h : HashFn :=
      match s.HashServiceAndArgs with
      | none => env.jumpHash
      | some f => f
    dialCurrent env { s with HashServiceAndArgs := some h, currentServer := h s.len options }
  else if s.SelectMode = .WeightedRoundRobin then
    match nextWeighted s.WeightedServers with
    | none => { state := s, dialed := [], ret := .panicked .nilDereference }
    | some (ws, best) =>
      connect env { s with WeightedServers := ws } best.Server.Network best.Server.Address
  else
    { state := s, dialed := [], ret := .error (.notSupported s.SelectMode) }

/-- Sequential `Select` calls, one per entry of `calls` (options and draw),
each on the selector the previous call left; the results in call order. -/
def selectSeq (env : Env) : MultiClientSelector → List (List Opt × Nat) →
    List (Out MultiClientSelector)
  | _, [] => []
  | s, c :: cs =>
    let o := Select env s c.1 c.2
    o :: selectSeq env o.state cs

end MultiClientSelector

/-! ## Removal of inactive peers, shared by the etcd and ZooKeeper selectors -/

/-- The body of `removeInactiveServers` on the two slices: for each index `k`
of `ks`, in the order given, `Servers = append(Servers[0:k], Servers[k+1:]...)`
and then the same on `WeightedServers`.  A slice-bounds panic stops the loop
with the slices as they are at that point. -/
def removeEach {α β : Type} (servers : List α) (weighted : List β) :
    List Nat → (List α × List β) × Option GoPanic
  | [] => ((servers, weighted), none)
  | k :: ks =>
    match removeAt servers k with
    | none => ((servers, weighted), some .sliceBounds)
    | some servers1 =>
      match removeAt weighted k with
      | none => ((servers1, weighted), some .sliceBounds)
      | some weighted1 => removeEach servers1 weighted1 ks

/-- One pass of the loop of `createWeighted` from index `i` on: for each entry
the weighted record built from it, and the indices of the entries flagged
inactive, in increasing order. -/
def weighLoop {ι : Type} (mk : ι → Weighted String) (inactive : ι → Bool) :
    Nat → List ι → List (Weighted String) × List Nat
  | _, [] => ([], [])
  | i, n :: rest =>
    let r := weighLoop mk inactive (i + 1) rest
    (mk n :: r.1, if inactive n then i :: r.2 else r.2)

/-- The metadata handling of one entry in `createWeighted`: the record starts
with weight 1; when the metadata parses and carries a non-empty `weight`, the
result of `strconv.Atoi` is stored if `Atoi` reported an error. -/
def weighEntry (env : Env) (server : String) (metadata : Option String) : Weighted String :=
  let w0 : Weighted String :=
    { Server := server, Weight := 1, EffectiveWeight := 1, CurrentWeight := 0 }
  match metadata with
  | none => w0
  | some md =>
    match env.parseQuery md with
    | none => w0
    | some v =>
      let w := v.Get "weight"
      if w ≠ "" then
        let res := env.atoi w
        if res.2 then { w0 with Weight := res.1, EffectiveWeight := res.1 } else w0
      else w0

/-- The state test of one entry in `createWeighted`: the metadata parses and
its `state` is neither empty nor `active`. -/
def flaggedInactive (env : Env) (metadata : Option String) : Bool :=
  match metadata with
  | none => false
  | some md =>
    match env.parseQuery md with
    | none => false
    | some v =>
      let state := v.Get "state"
      decide (state ≠ "" ∧ state ≠ "active")

/-- Successive refreshes of a selector, one per input, each on the selector
the previous one left; a panic ends the run (it ends the refreshing goroutine). -/
def runSteps {σ ι : Type} (step : σ → ι → Step σ) : σ → List ι → Step σ
  | s, [] => { state := s, panicked := none }
  | s, i :: rest =>
    let st := step s i
    match st.panicked with
    | some _ => st
    | none => runSteps step st.state rest

/-! ## The etcd selector (`etcd_selector.go`) -/

/-- A child node of the etcd listing (`client.Node`): its key and its value. -/
structure Node where
  Key : String
  Value : String
  deriving DecidableEq, Repr

/-- What `KeysAPI.Get` returns: an error, or a response whose `Node` is nil
(`none`) or carries the listed child nodes. -/
inductive GetReply where
  | failed (msg : String)
  | resp (nodes : Option (List Node))

/-- The selector over the children of an etcd directory.  Left out: the
registry handle `KeysAPI`, the unused `ticker`, `sessionTimeout`, `rnd` and
`Client`. -/
structure EtcdClientSelector where
  EtcdServers : List String
  BasePath : String
  Servers : List String
  WeightedServers : List (Weighted String)
  SelectMode : src.SelectMode
  dailTimeout : Nat
  currentServer : Int
  len : Int
  HashServiceAndArgs : Option HashFn

namespace EtcdClientSelector

/-- The method `SetSelectMode`. -/
def SetSelectMode (s : EtcdClientSelector) (sm : src.SelectMode) : EtcdClientSelector :=
  { s with SelectMode := sm }

/-- The method `removeInactiveServers`: the indices are visited from the last
to the first. -/
def removeInactiveServers (s : EtcdClientSelector) (inactiveServers : List Nat) :
    Step EtcdClientSelector :=
  let r := removeEach s.Servers s.WeightedServers inactiveServers.reverse
  { state := { s with Servers := r.1.1, WeightedServers := r.1.2 }, panicked := r.2 }

/-- The method `createWeighted`.  Its only caller passes the nodes `s.Servers`
was just built from, so each slot of the slice made with `len(s.Servers)`
entries is stored once by the loop. -/
def createWeighted (env : Env) (s : EtcdClientSelector) (nodes : List Node) :
    Step EtcdClientSelector :=
  let r := weighLoop
    (fun n => weighEntry env (strings.TrimPrefix n.Key (s.BasePath ++ "/")) (some n.Value))
    (fun n => flaggedInactive env (some n.Value)) 0 nodes
  removeInactiveServers { s with WeightedServers := r.1 } r.2

/-- The method `pullServers` on the reply of `KeysAPI.Get`. -/
def pullServers (env : Env) (s : EtcdClientSelector) (reply : GetReply) :
    Step EtcdClientSelector :=
  match reply with
  | .failed _ => { state := s, panicked := none }
  | .resp none => { state := s, panicked := none }
  | .resp (some nodes) =>
    if nodes.length > 0 then
      let servers := nodes.map (fun n => strings.TrimPrefix n.Key (s.BasePath ++ "/"))
      let st := createWeighted env { s with Servers := servers } nodes
      match st.panicked with
      | some _ => st
      | none =>
        let s1 : EtcdClientSelector := { st.state with len := st.state.Servers.length }
        if s1.len = 0 then { state := s1, panicked := some .divideByZero }
        else { state := { s1 with currentServer := s1.currentServer.tmod s1.len },
               panicked := none }
    else { state := s, panicked := none }

/-- The method `watch`: every change event of the watcher triggers a pull;
`replies` are the replies `KeysAPI.Get` gives to these pulls. -/
def watch (env : Env) (s : EtcdClientSelector) (replies : List GetReply) :
    Step EtcdClientSelector :=
  runSteps (pullServers env) s replies

/-- The method `start`: nothing happens when `client.New` fails (`newFailed`),
otherwise the first pull. -/
def start (env : Env) (s : EtcdClientSelector) (newFailed : Bool) (reply : GetReply) :
    Step EtcdClientSelector :=
  if newFailed then { state := s, panicked := none } else pullServers env s reply

/-- The step `server := s.Servers[s.currentServer]` followed by the split of
the peer string and the factory call. -/
def dialCurrent (env : Env) (s : EtcdClientSelector) : Out EtcdClientSelector :=
  match goIndex s.Servers s.currentServer with
  | none => { state := s, dialed := [], ret := .panicked .indexOutOfRange }
  | some server => connectPeer env s server

/-- The method `Select`; the hash receives the options as one slice argument. -/
def Select (env : Env) (s : EtcdClientSelector) (options : List Opt) (r : Nat) :
    Out EtcdClientSelector :=
  if s.len = 0 then
    { state := s, dialed := [], ret := .error .noAvailableService }
  else if s.SelectMode = .RandomSelect then
    match Intn s.len r with
    | none => { state := s, dialed := [], ret := .panicked .invalidArgument }
    | some i => dialCurrent env { s with currentServer := i }
  else if s.SelectMode = .RoundRobin then
    dialCurrent env { s with currentServer := (s.currentServer + 1).tmod s.len }
  else if s.SelectMode = .ConsistentHash then
    let h : HashFn :=
      match s.HashServiceAndArgs with
      | none => env.jumpHash
      | some f => f
    dialCurrent env
      { s with HashServiceAndArgs := some h, currentServer := h s.len [Opt.slice options] }
  else if s.SelectMode = .WeightedRoundRobin then
    match nextWeighted s.WeightedServers with
    | none => { state := s, dialed := [], ret := .panicked .nilDereference }
    | some (ws, best) => connectPeer env { s with WeightedServers := ws } best.Server
  else
    { state := s, dialed := [], ret := .error (.notSupported s.SelectMode) }

/-- Sequential `Select` calls, one per entry of `calls`. -/
def selectSeq (env : Env) : EtcdClientSelector → List (List Opt × Nat) →
    List (Out EtcdClientSelector)
  | _, [] => []
  | s, c :: cs =>
    let o := Select env s c.1 c.2
    o :: selectSeq env o.state cs

end EtcdClientSelector

/-- The constructor: the zero-valued selector, then `start`. -/
def NewEtcdClientSelector (env : Env) (etcdServers : List String) (basePath : String)
    (sm : src.SelectMode) (dailTimeout : Nat) (newFailed : Bool) (reply : GetReply) :
    Step EtcdClientSelector :=
  EtcdClientSelector.start env
    { EtcdServers := etcdServers
      BasePath := basePath
      Servers := []
      WeightedServers := []
      SelectMode := sm
      dailTimeout := dailTimeout
      currentServer := 0
      len := 0
      HashServiceAndArgs := none } newFailed reply

/-! ## The ZooKeeper selector (`zookeeper_selector.go`) -/

/-- What the ZooKeeper connection shows during one listing: the first result
of `Children`/`ChildrenW` (the code discards the error result; the library
hands back a nil slice with an error), whether that call failed, and the
result of `Get` on a path (`none` for an error). -/
structure ZkView where
  children : List String
  childrenFailed : Bool
  get : String → Option String

/-- The selector over the children of a ZooKeeper node.  Left out: `zkConn`,
`sessionTimeout`, `rnd` and `Client`. -/
structure ZooKeeperClientSelector where
  ZKServers : List String
  BasePath : String
  Servers : List String
  WeightedServers : List (Weighted String)
  SelectMode : src.SelectMode
  dailTimeout : Nat
  currentServer : Int
  len : Int
  HashServiceAndArgs : Option HashFn

namespace ZooKeeperClientSelector

/-- The method `SetSelectMode`. -/
def SetSelectMode (s : ZooKeeperClientSelector) (sm : src.SelectMode) :
    ZooKeeperClientSelector :=
  { s with SelectMode := sm }

/-- The method `removeInactiveServers`: the indices are visited from the last
to the first. -/
def removeInactiveServers (s : ZooKeeperClientSelector) (inactiveServers : List Nat) :
    Step ZooKeeperClientSelector :=
  let r := removeEach s.Servers s.WeightedServers inactiveServers.reverse
  { state := { s with Servers := r.1.1, WeightedServers := r.1.2 }, panicked := r.2 }

/-- The method `createWeighted`: one record per entry of `s.Servers`, with the
metadata read by `Get` on the path of the entry. -/
def createWeighted (env : Env) (s : ZooKeeperClientSelector) (view : ZkView) :
    Step ZooKeeperClientSelector :=
  let r := weighLoop
    (fun ss => weighEntry env ss (view.get (s.BasePath ++ "/" ++ ss)))
    (fun ss => flaggedInactive env (view.get (s.BasePath ++ "/" ++ ss))) 0 s.Servers
  removeInactiveServers { s with WeightedServers := r.1 } r.2

/-- The method `start` up to the launch of the watcher: it panics when
`zk.Connect` fails (`connectFailed`). -/
def start (env : Env) (s : ZooKeeperClientSelector) (connectFailed : Bool) (view : ZkView) :
    Step ZooKeeperClientSelector :=
  if connectFailed then { state := s, panicked := some .explicit }
  else
    let st := createWeighted env { s with Servers := view.children } view
    match st.panicked with
    | some _ => st
    | none =>
      let s1 : ZooKeeperClientSelector := { st.state with len := st.state.Servers.length }
      if s1.len = 0 then { state := s1, panicked := some .divideByZero }
      else { state := { s1 with currentServer := s1.currentServer.tmod s1.len },
             panicked := none }

/-- One round of the method `watchPath`, up to the wait on the watch channel. -/
def watchRound (env : Env) (s : ZooKeeperClientSelector) (view : ZkView) :
    Step ZooKeeperClientSelector :=
  let s1 : ZooKeeperClientSelector :=
    { s with Servers := view.children, len := view.children.length }
  let st : Step ZooKeeperClientSelector :=
    if s1.SelectMode = .WeightedRoundRobin then createWeighted env s1 view
    else { state := s1, panicked := none }
  match st.panicked with
  | some _ => st
  | none =>
    let s2 := st.state
    if s2.len = 0 then { state := s2, panicked := some .divideByZero }
    else { state := { s2 with currentServer := s2.currentServer.tmod s2.len },
           panicked := none }

/-- The method `watchPath`: it calls itself after each wake-up of the watch
channel; `views` are the listings the successive rounds see. -/
def watchPath (env : Env) (s : ZooKeeperClientSelector) (views : List ZkView) :
    Step ZooKeeperClientSelector :=
  runSteps (watchRound env) s views

/-- The step `server := s.Servers[s.currentServer]` followed by the split of
the peer string and the factory call. -/
def dialCurrent (env : Env) (s : ZooKeeperClientSelector) : Out ZooKeeperClientSelector :=
  match goIndex s.Servers s.currentServer with
  | none => { state := s, dialed := [], ret := .panicked .indexOutOfRange }
  | some server => connectPeer env s server

/-- The method `Select`.  Its second branch tests `RandomSelect` again, as the
source does. -/
def Select (env : Env) (s : ZooKeeperClientSelector) (options : List Opt) (r : Nat) :
    Out ZooKeeperClientSelector :=
  if s.len = 0 then
    { state := s, dialed := [], ret := .error .noAvailableService }
  else if s.SelectMode = .RandomSelect then
    match Intn s.len r with
    | none => { state := s, dialed := [], ret := .panicked .invalidArgument }
    | some i => dialCurrent env { s with currentServer := i }
  else if s.SelectMode = .RandomSelect then
    dialCurrent env { s with currentServer := (s.currentServer + 1).tmod s.len }
  else if s.SelectMode = .ConsistentHash then
    let h : HashFn :=
      match s.HashServiceAndArgs with
      | none => env.jumpHash
      | some f => f
    dialCurrent env
      { s with HashServiceAndArgs := some h, currentServer := h s.len [Opt.slice options] }
  else if s.SelectMode = .WeightedRoundRobin then
    match nextWeighted s.WeightedServers with
    | none => { state := s, dialed := [], ret := .panicked .nilDereference }
    | some (ws, best) => connectPeer env { s with WeightedServers := ws } best.Server
  else
    { state := s, dialed := [], ret := .error (.notSupported s.SelectMode) }

end ZooKeeperClientSelector

/-- The constructor: the zero-valued selector, then `start`. -/
def NewZooKeeperClientSelector (env : Env) (zkServers : List String) (basePath : String)
    (sm : src.SelectMode) (dailTimeout : Nat) (connectFailed : Bool) (view : ZkView) :
    Step ZooKeeperClientSelector :=
  ZooKeeperClientSelector.start env
    { ZKServers := zkServers
      BasePath := basePath
      Servers := []
      WeightedServers := []
      SelectMode := sm
      dailTimeout := dailTimeout
      currentServer := 0
      len := 0
      HashServiceAndArgs := none } connectFailed view

/-! ## The Consul selector (`consul_selector.go`) -/

/-- A service entry of the Consul agent (`api.AgentService`), with the fields
the selector reads. -/
structure AgentService where
  Address : String
  Tags : List String
  deriving DecidableEq, Repr

/-- The selector over the services of a Consul agent; an entry of `Servers` is
a pointer and may be nil (`none`).  Left out: the registry handles, `ticker`,
`sessionTimeout`, `rnd` and `Client`. -/
structure ConsulClientSelector where
  ConsulAddress : String
  Servers : List (Option AgentService)
  WeightedServers : List (Weighted AgentService)
  ServiceName : String
  SelectMode : src.SelectMode
  dailTimeout : Nat
  currentServer : Int
  len : Int
  HashServiceAndArgs : Option HashFn

namespace ConsulClientSelector

/-- The method `SetSelectMode`. -/
def SetSelectMode (s : ConsulClientSelector) (sm : src.SelectMode) : ConsulClientSelector :=
  { s with SelectMode := sm }

/-- The method `pullServers` on the reply of `agent.Services()`: an error, or
the entries of the returned map in the order the loop visits them. -/
def pullServers (s : ConsulClientSelector)
    (reply : Except String (List (String × AgentService))) : Step ConsulClientSelector :=
  match reply with
  | .error _ => { state := s, panicked := none }
  | .ok ass =>
    let services := (ass.filter (fun kv => strings.HasPrefix kv.1 s.ServiceName)).map
      (fun kv => some kv.2)
    { state := { s with Servers := services }, panicked := none }

/-- The step `server := s.Servers[s.currentServer]` followed by the read of
`server.Address`, the split and the factory call. -/
def dialCurrent (env : Env) (s : ConsulClientSelector) : Out ConsulClientSelector :=
  match goIndex s.Servers s.currentServer with
  | none => { state := s, dialed := [], ret := .panicked .indexOutOfRange }
  | some none => { state := s, dialed := [], ret := .panicked .nilDereference }
  | some (some server) => connectPeer env s server.Address

/-- The method `Select`.  Its second branch tests `RandomSelect` again, as the
source does. -/
def Select (env : Env) (s : ConsulClientSelector) (options : List Opt) (r : Nat) :
    Out ConsulClientSelector :=
  if s.len = 0 then
    { state := s, dialed := [], ret := .error .noAvailableService }
  else if s.SelectMode = .RandomSelect then
    match Intn s.len r with
    | none => { state := s, dialed := [], ret := .panicked .invalidArgument }
    | some i => dialCurrent env { s with currentServer := i }
  else if s.SelectMode = .RandomSelect then
    dialCurrent env { s with currentServer := (s.currentServer + 1).tmod s.len }
  else if s.SelectMode = .ConsistentHash then
    let h : HashFn :=
      match s.HashServiceAndArgs with
      | none => env.jumpHash
      | some f => f
    dialCurrent env
      { s with HashServiceAndArgs := some h, currentServer := h s.len [Opt.slice options] }
  else if s.SelectMode = .WeightedRoundRobin then
    match nextWeighted s.WeightedServers with
    | none => { state := s, dialed := [], ret := .panicked .nilDereference }
    | some (ws, best) => connectPeer env { s with WeightedServers := ws } best.Server.Address
  else
    { state := s, dialed := [], ret := .error (.notSupported s.SelectMode) }

end ConsulClientSelector

/-- The constructor: `Servers` is made with one nil entry, then `start` pulls
once. -/
def NewConsulClientSelector (consulAddress serviceName : String) (sm : src.SelectMode)
    (dailTimeout : Nat) (reply : Except String (List (String × AgentService))) :
    Step ConsulClientSelector :=
  ConsulClientSelector.pullServers
    { ConsulAddress := consulAddress
      Servers := [none]
      WeightedServers := []
      ServiceName := serviceName
      SelectMode := sm
      dailTimeout := dailTimeout
      currentServer := 0
      len := 0
      HashServiceAndArgs := none } reply

/-! ## Models of the two standard-library functions, for concrete inputs -/

namespace url

/-- Value of a hexadecimal digit. -/
def unhex (c : Char) : Option Nat :=
  if '0' ≤ c ∧ c ≤ '9' then some (c.toNat - '0'.toNat)
  else if 'a' ≤ c ∧ c ≤ 'f' then some (c.toNat - 'a'.toNat + 10)
  else if 'A' ≤ c ∧ c ≤ 'F' then some (c.toNat - 'A'.toNat + 10)
  else none

/-- Go `url.QueryUnescape` on characters: `%XY` is decoded, `+` is a blank, a
`%` not followed by two hexadecimal digits is an error. -/
def unescape : List Char → Option (List Char)
  | [] => some []
  | c :: rest =>
    if c = '%' then
      match rest with
      | a :: b :: rest2 =>
        match unhex a, unhex b, unescape rest2 with
        | some x, some y, some r => some (Char.ofNat (16 * x + y) :: r)
        | _, _, _ => none
      | _ => none
    else
      match unescape rest with
      | some r => some ((if c = '+' then ' ' else c) :: r)
      | none => none

/-- One `key=value` piece of a query: `none` for a piece that is skipped with
an error (a semicolon or a bad escape), otherwise the pairs it adds. -/
def parsePiece (piece : List Char) : Option Values :=
  if piece.contains ';' then none
  else if piece = [] then some []
  else
    let key := piece.takeWhile (fun c => c ≠ '=')
    let value := (piece.dropWhile (fun c => c ≠ '=')).drop 1
    match unescape key, unescape value with
    | some k, some v => some [(String.mk k, String.mk v)]
    | _, _ => none

/-- Go `url.ParseQuery`, reduced to what its caller reads: the parsed pairs
when no piece raised an error, `none` otherwise. -/
def ParseQuery (query : String) : Option Values :=
  (strings.splitChars '&' query.data).foldr
    (fun piece acc =>
      match parsePiece piece, acc with
      | some kv, some rest => some (kv ++ rest)
      | _, _ => none)
    (some [])

end url

namespace strconv

/-- Value of a string of decimal digits, read from the left onto `acc`; `none`
when a character is not a digit. -/
def digitsValue : List Char → Nat → Option Nat
  | [], acc => some acc
  | c :: cs, acc =>
    if '0' ≤ c ∧ c ≤ '9' then digitsValue cs (10 * acc + (c.toNat - '0'.toNat)) else none

/-- Go `strconv.Atoi` on a 64-bit platform: the value with no error, zero with
a syntax error, or the nearest bound with a range error. -/
def Atoi (s : String) : Int × Bool :=
  let negative := s.data.head? = some '-'
  let digits := if s.data.head? = some '-' ∨ s.data.head? = some '+' then s.data.drop 1 else s.data
  if digits = [] then (0, true)
  else
    match digitsValue digits 0 with
    | none => (0, true)
    | some n =>
      let v : Int := if negative then - (n : Int) else n
      if v > 9223372036854775807 then (9223372036854775807, true)
      else if v < -9223372036854775808 then (-9223372036854775808, true)
      else (v, false)

end strconv

/-- The environment with the standard-library models, over a connection
factory and a default hash. -/
def goEnv (dial : String → String → Except String Conn) (jumpHash : HashFn) : Env :=
  { dial := dial, jumpHash := jumpHash, parseQuery := url.ParseQuery, atoi := strconv.Atoi }

/-! ## Further methods and runs -/

namespace MultiClientSelector

/-- The loop of `AllClients`: `clients` holds the connections appended so far;
a peer whose connection attempt fails is passed over. -/
def allClientsLoop (env : Env) : List Conn → List ServerPeer → List Conn
  | clients, [] => clients
  | clients, sv :: rest =>
    match env.dial sv.Network sv.Address with
    | .ok c => allClientsLoop env (clients ++ [c]) rest
    | .error _ => allClientsLoop env clients rest

/-- The method `AllClients`: it returns the slice of connections and nothing
else. -/
def AllClients (env : Env) (s : MultiClientSelector) : List Conn :=
  allClientsLoop env [] s.Servers

end MultiClientSelector

namespace ConsulClientSelector

/-- The refreshing goroutine of `start`: one `pullServers` per tick of the
ticker; `replies` are the replies of `agent.Services()` to these pulls. -/
def refreshes (s : ConsulClientSelector)
    (replies : List (Except String (List (String × AgentService)))) :
    Step ConsulClientSelector :=
  runSteps pullServers s replies

end ConsulClientSelector

/-- The winners of `n` sequential calls of `nextWeighted`, each on the sequence
the previous call left; an empty sequence has no winner and ends the run. -/
def nextWeightedSeq {α : Type} : Nat → List (Weighted α) → List (Weighted α)
  | 0, _ => []
  | n + 1, servers =>
    match nextWeighted servers with
    | none => []
    | some (servers1, best) => best :: nextWeightedSeq n servers1

/-- The sequence `nextWeighted` leaves after `n` sequential calls. -/
def nextWeightedAfter {α : Type} : Nat → List (Weighted α) → List (Weighted α)
  | 0, servers => servers
  | n + 1, servers =>
    match nextWeighted servers with
    | none => servers
    | some (servers1, _) => nextWeightedAfter n servers1

/-! ## Predicates on selector values -/

/-- A static selector as `NewMultiClientSelector` builds it over `servers` in
mode `sm` and as `Select` keeps it: the peer list and the mode are the given
ones, the cached length is the length of the list, the cursor is an index of
the list and, in WeightedRoundRobin mode, the weighted records wrap the peers
in order. -/
structure StaticShape (servers : List ServerPeer) (sm : src.SelectMode)
    (s : MultiClientSelector) : Prop where
  servers_eq : s.Servers = servers
  len_eq : s.len = servers.length
  mode_eq : s.SelectMode = sm
  weighted_eq : sm = .WeightedRoundRobin → s.WeightedServers.map (fun w => w.Server) = servers
  cursor_nonneg : 0 ≤ s.currentServer
  cursor_lt : s.currentServer < servers.length

/-- A static selector in RoundRobin mode over `n` peers with its cursor on an
index of the peer list. -/
structure StaticRoundRobin (n : Nat) (s : MultiClientSelector) : Prop where
  mode_eq : s.SelectMode = .RoundRobin
  len_eq : s.len = n
  servers_len : s.Servers.length = n
  cursor_nonneg : 0 ≤ s.currentServer
  cursor_lt : s.currentServer < n

/-- An etcd selector in RoundRobin mode over `n` peers with its cursor on an
index of the peer list. -/
structure EtcdRoundRobin (n : Nat) (s : EtcdClientSelector) : Prop where
  mode_eq : s.SelectMode = .RoundRobin
  len_eq : s.len = n
  servers_len : s.Servers.length = n
  cursor_nonneg : 0 ≤ s.currentServer
  cursor_lt : s.currentServer < n

/-- The entries of `xs` whose index is not in `ks`, in their original order:
what the removal of the indices `ks` is to leave. -/
def keepOutside {α : Type} (ks : List Nat) (xs : List α) : List α :=
  (xs.enum.filter (fun p => decide (p.1 ∉ ks))).map Prod.snd

/-- The entries of `xs` whose index, counted from `i` on, is not in `ks`, in
their order (the recursive form of `keepOutside`). -/
def keepOutsideFrom {α : Type} (ks : List Nat) : Nat → List α → List α
  | _, [] => []
  | i, x :: xs =>
    if i ∈ ks then keepOutsideFrom ks (i + 1) xs else x :: keepOutsideFrom ks (i + 1) xs

/-- The keep test of `createWeighted`, read off the source: an entry stays in
`Servers` and `WeightedServers` unless `url.ParseQuery` accepts its metadata
and the `state` it yields is neither empty nor `active`.  Metadata that
`url.ParseQuery` rejects is never tested and the entry is kept, whatever state
it writes. -/
def countsAsActive (env : Env) (metadata : String) : Bool :=
  match env.parseQuery metadata with
  | none => true
  | some v => decide (v.Get "state" = "" ∨ v.Get "state" = "active")

/-- The pairs of a query string that decode, in order of appearance: the
values Go's `url.ParseQuery` hands back whether or not it also reports an
error for another piece of the string. -/
def url.decodedPairs (query : String) : Values :=
  (strings.splitChars '&' query.data).foldr
    (fun piece acc =>
      match url.parsePiece piece with
      | some kv => kv ++ acc
      | none => acc)
    []

/-- The state a registry entry's metadata carries, taken from the metadata as
it is written: the value of its `state` key, and the empty string when it has
no such key. -/
def statedState (metadata : String) : String :=
  (url.decodedPairs metadata).Get "state"

/-- Index alignment of an etcd selector: `WeightedServers[i]` holds
`Servers[i]` for every `i` (so the two slices have one length), and the cached
length is that length. -/
structure EtcdAligned (s : EtcdClientSelector) : Prop where
  servers_eq : s.WeightedServers.map (fun w => w.Server) = s.Servers
  len_eq : s.len = s.Servers.length

/-- Index alignment of the two slices of a ZooKeeper selector. -/
def ZkAligned (s : ZooKeeperClientSelector) : Prop :=
  s.WeightedServers.map (fun w => w.Server) = s.Servers

/-- The connection the factory opens to a peer, if the attempt succeeds. -/
def opened (env : Env) (sv : ServerPeer) : Option Conn :=
  match env.dial sv.Network sv.Address with
  | .ok c => some c
  | .error _ => none

/-- Two weighted peers with the weights 3 and 1 and current weights 0. -/
def threeAndOne {α : Type} (a b : α) : List (Weighted α) :=
  [{ Server := a, Weight := 3, EffectiveWeight := 3, CurrentWeight := 0 },
   { Server := b, Weight := 1, EffectiveWeight := 1, CurrentWeight := 0 }]

/-- The configured weight of the winner of call `i` (counted from 0) on the
peers of `threeAndOne`: the weight-1 peer wins the third call of every four. -/
def winnerWeight (i : Nat) : Int :=
  if i % 4 = 2 then 1 else 3

/-! ## Sample inputs -/

/-- A connection factory that reaches the two servers of the demo client. -/
def demoDial : String → String → Except String Conn :=
  fun _ address =>
    if address = "127.0.0.1:8972" then .ok 1
    else if address = "127.0.0.1:8973" then .ok 2
    else .error "connection refused"

/-- A stand-in for the default hash. -/
def demoHash : HashFn := fun _ _ => 0

/-- The environment of the samples. -/
def demoEnv : Env := goEnv demoDial demoHash

/-- The two servers of the demo client (`client.go`), here with weight 1. -/
def demoPeers : List ServerPeer :=
  [{ Network := "tcp", Address := "127.0.0.1:8972", Weight := 1 },
   { Network := "tcp", Address := "127.0.0.1:8973", Weight := 1 }]

/-- A static selector over the demo peers in RoundRobin mode, cursor on 0. -/
def demoStatic : MultiClientSelector :=
  { Servers := demoPeers, WeightedServers := [], SelectMode := .RoundRobin, dailTimeout := 10,
    currentServer := 0, len := 2, HashServiceAndArgs := none }

/-- A static selector with no peers. -/
def emptyStatic : MultiClientSelector :=
  { Servers := [], WeightedServers := [], SelectMode := .RoundRobin, dailTimeout := 10,
    currentServer := 0, len := 0, HashServiceAndArgs := none }

/-- A static selector over the demo peers in a mode outside the four. -/
def oddModeStatic : MultiClientSelector :=
  { demoStatic with SelectMode := .other 7 }

/-- An etcd selector over two peers in RoundRobin mode, cursor on 0. -/
def demoEtcd : EtcdClientSelector :=
  { EtcdServers := ["127.0.0.1:2379"], BasePath := "/rpct/Arith",
    Servers := ["tcp@127.0.0.1:8972", "tcp@127.0.0.1:8973"],
    WeightedServers :=
      [{ Server := "tcp@127.0.0.1:8972", Weight := 1, EffectiveWeight := 1, CurrentWeight := 0 },
       { Server := "tcp@127.0.0.1:8973", Weight := 1, EffectiveWeight := 1, CurrentWeight := 0 }],
    SelectMode := .RoundRobin, dailTimeout := 10, currentServer := 0, len := 2,
    HashServiceAndArgs := none }

/-- An etcd selector before any successful pull. -/
def emptyEtcd : EtcdClientSelector :=
  { demoEtcd with Servers := [], WeightedServers := [], len := 0 }

/-- A Consul selector after a pull that found one service: its cached length
is still 0. -/
def demoConsul : ConsulClientSelector :=
  { ConsulAddress := "127.0.0.1:8500",
    Servers := [some { Address := "tcp@127.0.0.1:8972", Tags := [] }],
    WeightedServers := [], ServiceName := "Arith", SelectMode := .RandomSelect,
    dailTimeout := 10, currentServer := 0, len := 0, HashServiceAndArgs := none }

/-- A ZooKeeper listing of the given children whose metadata is `metadata`. -/
def zkListing (children : List String) (metadata : String → String) : ZkView :=
  { children := children, childrenFailed := false, get := fun path => some (metadata path) }

/-- A ZooKeeper listing that fails: the library hands back no children. -/
def zkFailedListing : ZkView :=
  { children := [], childrenFailed := true, get := fun _ => none }

/-- A ZooKeeper selector with no peers. -/
def emptyZk : ZooKeeperClientSelector :=
  { ZKServers := ["127.0.0.1:2181"], BasePath := "/rpct/Arith", Servers := [],
    WeightedServers := [], SelectMode := .RandomSelect, dailTimeout := 10,
    currentServer := 0, len := 0, HashServiceAndArgs := none }

/-- A ZooKeeper selector built in RoundRobin mode over one child and then
refreshed by a round of `watchPath` that lists two children. -/
def zkGrown : Step ZooKeeperClientSelector :=
  ZooKeeperClientSelector.watchPath demoEnv
    (NewZooKeeperClientSelector demoEnv ["127.0.0.1:2181"] "/rpct/Arith" .RoundRobin 10 false
      (zkListing ["tcp@127.0.0.1:8972"] (fun _ => ""))).state
    [zkListing ["tcp@127.0.0.1:8972", "tcp@127.0.0.1:8973"] (fun _ => "")]

/-- Three peer strings. -/
def threePeers : List String :=
  ["tcp@127.0.0.1:8972", "tcp@127.0.0.1:8973", "tcp@127.0.0.1:8974"]

/-- A ZooKeeper selector built in WeightedRoundRobin mode over three active
children, whose cursor a `Select` in RandomSelect mode (draw 2) has put on
index 2 before the mode was set back. -/
def zkCursorOnLast : ZooKeeperClientSelector :=
  ((ZooKeeperClientSelector.Select demoEnv
      ((NewZooKeeperClientSelector demoEnv ["127.0.0.1:2181"] "/rpct/Arith"
          .WeightedRoundRobin 10 false (zkListing threePeers (fun _ => ""))).state.SetSelectMode
        .RandomSelect) [] 2).state).SetSelectMode .WeightedRoundRobin

/-- The listing of the same three children once the third is flagged inactive. -/
def zkThirdInactive : ZkView :=
  zkListing threePeers
    (fun path => if path = "/rpct/Arith/tcp@127.0.0.1:8974" then "state=inactive" else "")

/-- The round of `watchPath` that sees the third child flagged inactive. -/
def zkShrunk : Step ZooKeeperClientSelector :=
  ZooKeeperClientSelector.watchRound demoEnv zkCursorOnLast zkThirdInactive

/-- An etcd selector over the three peers in RoundRobin mode, cursor on 2. -/
def etcdCursorOnLast : EtcdClientSelector :=
  { EtcdServers := ["127.0.0.1:2379"], BasePath := "/rpct/Arith", Servers := threePeers,
    WeightedServers := threePeers.map
      (fun p => { Server := p, Weight := 1, EffectiveWeight := 1, CurrentWeight := 0 }),
    SelectMode := .RoundRobin, dailTimeout := 10, currentServer := 2, len := 3,
    HashServiceAndArgs := none }

/-- An etcd listing of the three peers, all flagged inactive. -/
def etcdAllInactive : GetReply :=
  .resp (some (threePeers.map
    (fun p => { Key := "/rpct/Arith/" ++ p, Value := "state=inactive" })))

/-- An etcd listing of one peer whose weight is not a number. -/
def etcdBadWeight : GetReply :=
  .resp (some [{ Key := "/rpct/Arith/tcp@127.0.0.1:8972", Value := "weight=abc" }])

/-- A ZooKeeper listing of one child whose weight is not a number. -/
def zkBadWeight : ZkView :=
  zkListing ["tcp@127.0.0.1:8972"] (fun _ => "weight=abc")

/-- A ZooKeeper selector over two peers in RandomSelect mode, cursor on 1. -/
def demoZk : ZooKeeperClientSelector :=
  { ZKServers := ["127.0.0.1:2181"], BasePath := "/rpct/Arith",
    Servers := ["tcp@127.0.0.1:8972", "tcp@127.0.0.1:8973"],
    WeightedServers :=
      [{ Server := "tcp@127.0.0.1:8972", Weight := 1, EffectiveWeight := 1, CurrentWeight := 0 },
       { Server := "tcp@127.0.0.1:8973", Weight := 1, EffectiveWeight := 1, CurrentWeight := 0 }],
    SelectMode := .RandomSelect, dailTimeout := 10, currentServer := 1, len := 2,
    HashServiceAndArgs := none }

/-- An etcd listing of two peers, the second one flagged inactive. -/
def etcdOneInactive : List Node :=
  [{ Key := "/rpct/Arith/tcp@127.0.0.1:8972", Value := "weight=2" },
   { Key := "/rpct/Arith/tcp@127.0.0.1:8973", Value := "state=inactive" }]

/-- The two peers as the demo client (`client.go`) builds them: no weight is
given, so `Weight` has the zero value of `int`. -/
def clientGoPeers : List ServerPeer :=
  [{ Network := "tcp", Address := "127.0.0.1:8972", Weight := 0 },
   { Network := "tcp", Address := "127.0.0.1:8973", Weight := 0 }]

/-- A ZooKeeper selector over two peers in RoundRobin mode. -/
def roundRobinZk : ZooKeeperClientSelector :=
  { demoZk with SelectMode := .RoundRobin }

/-- A Consul selector value over one peer in RoundRobin mode with the cached
length 1 (a value of the type; the constructor and the pulls leave 0). -/
def roundRobinConsul : ConsulClientSelector :=
  { demoConsul with SelectMode := .RoundRobin, len := 1 }

/-- An etcd entry with the valid weight 5. -/
def etcdWeightFive : Node :=
  { Key := "/rpct/Arith/tcp@127.0.0.1:8972", Value := "weight=5" }

/-- An etcd entry whose metadata writes the state `inactive` next to a weight
with a malformed escape, which makes `url.ParseQuery` report an error. -/
def etcdInactiveBadEscape : Node :=
  { Key := "/rpct/Arith/tcp@127.0.0.1:8972", Value := "state=inactive&weight=%zz" }

/-! ## Theorems -/

theorem maxCurrent_lt {α : Type} :
    ∀ (l : List (Weighted α)) (j : Nat) (c : Int), maxCurrent l = some (j, c) → j < l.length
  | [], j, c, h => by simp [maxCurrent] at h
  | w :: ws, j, c, h => by
    unfold maxCurrent at h
    cases hm : maxCurrent ws with
    | none =>
      simp only [hm] at h
      simp at h
      simp [← h.1]
    | some p =>
      obtain ⟨j', c'⟩ := p
      have ih := maxCurrent_lt ws j' c' hm
      simp only [hm] at h
      split at h
      · simp at h
        simp [← h.1, ih]
      · simp at h
        simp [← h.1]

theorem maxCurrent_eq_none {α : Type} (l : List (Weighted α)) :
    maxCurrent l = none ↔ l = [] := by
  cases l with
  | nil => simp [maxCurrent]
  | cons w ws =>
    unfold maxCurrent
    cases hm : maxCurrent ws with
    | none => simp
    | some p =>
      obtain ⟨j', c'⟩ := p
      simp only
      split <;> simp

/-- The winner of `nextWeighted` is an entry of the sequence and the peers of
the sequence stay as they are; only the empty sequence has no winner. -/
theorem nextWeighted_spec {α : Type} (ws : List (Weighted α)) :
    (ws = [] ∧ nextWeighted ws = none) ∨
    ∃ ws1 best j, nextWeighted ws = some (ws1, best) ∧ j < ws.length ∧
      (ws.map (fun w => w.Server))[j]? = some best.Server ∧
      ws1.map (fun w => w.Server) = ws.map (fun w => w.Server) := by
  cases hws : ws with
  | nil => left; simp [nextWeighted, maxCurrent]
  | cons w0 rest =>
    right
    rw [← hws]
    unfold nextWeighted
    simp only
    cases hm : maxCurrent (ws.map
        (fun w => { w with CurrentWeight := w.CurrentWeight + w.EffectiveWeight })) with
    | none =>
      rw [maxCurrent_eq_none] at hm
      simp [hws] at hm
    | some p =>
      obtain ⟨j, c⟩ := p
      have hj := maxCurrent_lt _ j c hm
      simp only [List.length_map] at hj
      simp only
      have hget : (ws.map (fun w : Weighted α =>
          { w with CurrentWeight := w.CurrentWeight + w.EffectiveWeight }))[j]?
          = some { ws[j] with CurrentWeight := ws[j].CurrentWeight + ws[j].EffectiveWeight } := by
        simp [List.getElem?_eq_getElem hj]
      rw [hget]
      refine ⟨_, _, j, rfl, hj, ?_, ?_⟩
      · simp [List.getElem?_eq_getElem hj]
      · rw [List.map_set]
        simp only [List.map_map]
        apply List.ext_getElem?
        intro i
        rw [List.getElem?_set]
        split
        · rename_i hij
          subst hij
          simp [hj, List.getElem?_eq_getElem hj]
        · rfl

theorem goIndex_of_lt {α : Type} (xs : List α) (i : Int) (h0 : 0 ≤ i) (h1 : i < xs.length) :
    ∃ x, goIndex xs i = some x ∧ xs[i.toNat]? = some x ∧ i.toNat < xs.length := by
  have hlt : i.toNat < xs.length := by omega
  refine ⟨xs[i.toNat], ?_, ?_, hlt⟩
  · simp [goIndex, h0, List.getElem?_eq_getElem hlt]
  · simp [List.getElem?_eq_getElem hlt]

theorem Intn_of_pos (n : Int) (r : Nat) (hn : 0 < n) :
    ∃ i, Intn n r = some i ∧ 0 ≤ i ∧ i < n := by
  refine ⟨(r : Int) % n, ?_, Int.emod_nonneg _ (by omega), Int.emod_lt_of_pos _ hn⟩
  simp [Intn, not_le.mpr hn]

theorem connect_ret_ne_panicked {σ : Type} (env : Env) (s : σ) (n a : String) (p : GoPanic) :
    (connect env s n a).ret ≠ .panicked p := by
  unfold connect
  cases env.dial n a <;> simp

/-- C2: on each of the four backends, a selector whose cached length is 0
answers `Select` with the error "No available service" and no connection, makes
no call to the connection factory and stays as it was (cursor and peer lists
included), whatever the selection mode, the options and the random draw. -/
theorem select_on_empty_is_noAvailableService (env : Env) (options : List Opt) (r : Nat)
    (a : MultiClientSelector) (b : ConsulClientSelector) (c : EtcdClientSelector)
    (d : ZooKeeperClientSelector)
    (ha : a.len = 0) (hb : b.len = 0) (hc : c.len = 0) (hd : d.len = 0) :
    MultiClientSelector.Select env a options r
        = { state := a, dialed := [], ret := .error .noAvailableService } ∧
    ConsulClientSelector.Select env b options r
        = { state := b, dialed := [], ret := .error .noAvailableService } ∧
    EtcdClientSelector.Select env c options r
        = { state := c, dialed := [], ret := .error .noAvailableService } ∧
    ZooKeeperClientSelector.Select env d options r
        = { state := d, dialed := [], ret := .error .noAvailableService } := by
  refine ⟨?_, ?_, ?_, ?_⟩
  · simp [MultiClientSelector.Select, ha]
  · simp [ConsulClientSelector.Select, hb]
  · simp [EtcdClientSelector.Select, hc]
  · simp [ZooKeeperClientSelector.Select, hd]

theorem connect_ret_ne_notSupported {σ : Type} (env : Env) (s : σ) (n a : String)
    (sm : src.SelectMode) : (connect env s n a).ret ≠ .error (.notSupported sm) := by
  unfold connect
  cases env.dial n a <;> simp

theorem static_dialCurrent_ret_ne_notSupported (env : Env) (s : MultiClientSelector)
    (sm : src.SelectMode) :
    (MultiClientSelector.dialCurrent env s).ret ≠ .error (.notSupported sm) := by
  unfold MultiClientSelector.dialCurrent
  cases goIndex s.Servers s.currentServer with
  | none => simp
  | some peer => exact connect_ret_ne_notSupported env s _ _ sm

/-- C10: on a static selector whose cached length is not 0, `Select` ends with
the "not supported SelectMode" error exactly when the mode is none of
RandomSelect, RoundRobin, ConsistentHash and WeightedRoundRobin; when it does,
the connection factory was not called and the selector (its cursor included)
is unchanged. -/
theorem static_select_notSupported_iff (env : Env) (s : MultiClientSelector)
    (options : List Opt) (r : Nat) (hlen : s.len ≠ 0) :
    ((∃ sm, (MultiClientSelector.Select env s options r).ret = .error (.notSupported sm)) ↔
      (s.SelectMode ≠ .RandomSelect ∧ s.SelectMode ≠ .RoundRobin ∧
        s.SelectMode ≠ .ConsistentHash ∧ s.SelectMode ≠ .WeightedRoundRobin)) ∧
    ((∃ sm, (MultiClientSelector.Select env s options r).ret = .error (.notSupported sm)) →
      (MultiClientSelector.Select env s options r).dialed = [] ∧
      (MultiClientSelector.Select env s options r).state = s ∧
      (MultiClientSelector.Select env s options r).ret = .error (.notSupported s.SelectMode)) := by
  have key : (s.SelectMode ≠ .RandomSelect ∧ s.SelectMode ≠ .RoundRobin ∧
        s.SelectMode ≠ .ConsistentHash ∧ s.SelectMode ≠ .WeightedRoundRobin) →
      MultiClientSelector.Select env s options r
        = { state := s, dialed := [], ret := .error (.notSupported s.SelectMode) } := by
    rintro ⟨h1, h2, h3, h4⟩
    simp [MultiClientSelector.Select, hlen, h1, h2, h3, h4]
  have back : (∃ sm, (MultiClientSelector.Select env s options r).ret
        = .error (.notSupported sm)) →
      (s.SelectMode ≠ .RandomSelect ∧ s.SelectMode ≠ .RoundRobin ∧
        s.SelectMode ≠ .ConsistentHash ∧ s.SelectMode ≠ .WeightedRoundRobin) := by
    rintro ⟨sm, h⟩
    refine ⟨?_, ?_, ?_, ?_⟩
    · intro h1
      simp only [MultiClientSelector.Select, hlen, h1, if_true, if_false] at h
      cases hi : Intn s.len r with
      | none => simp [hi] at h
      | some i =>
        simp only [hi] at h
        exact static_dialCurrent_ret_ne_notSupported env _ sm h
    · intro h2
      by_cases h1 : s.SelectMode = .RandomSelect
      · simp [h1] at h2
      · simp only [MultiClientSelector.Select, hlen, h1, h2, if_true, if_false] at h
        exact static_dialCurrent_ret_ne_notSupported env _ sm h
    · intro h3
      simp only [MultiClientSelector.Select, hlen, h3, if_false] at h
      simp at h
      exact static_dialCurrent_ret_ne_notSupported env _ sm h
    · intro h4
      simp only [MultiClientSelector.Select, hlen, h4, if_false] at h
      simp at h
      cases hw : nextWeighted s.WeightedServers with
      | none => simp [hw] at h
      | some p =>
        obtain ⟨ws, best⟩ := p
        simp only [hw] at h
        exact connect_ret_ne_notSupported env _ _ _ sm h
  refine ⟨⟨back, fun h => ⟨s.SelectMode, by rw [key h]⟩⟩, fun h => ?_⟩
  rw [key (back h)]
  exact ⟨rfl, rfl, rfl⟩

/-- On a static selector in its constructed shape, `dialCurrent` reads the peer
at the cursor and hands it to the connection factory. -/
theorem static_dialCurrent_of_shape (env : Env) (servers : List ServerPeer)
    (sm : src.SelectMode) (s : MultiClientSelector) (hs : StaticShape servers sm s) :
    ∃ (i : Nat) (peer : ServerPeer), i < servers.length ∧ servers[i]? = some peer ∧
      s.currentServer = i ∧
      MultiClientSelector.dialCurrent env s = connect env s peer.Network peer.Address := by
  obtain ⟨peer, h1, h2, h3⟩ := goIndex_of_lt s.Servers s.currentServer hs.cursor_nonneg
    (by rw [hs.servers_eq]; exact hs.cursor_lt)
  rw [hs.servers_eq] at h2 h3
  refine ⟨s.currentServer.toNat, peer, h3, h2, ?_, ?_⟩
  · have := hs.cursor_nonneg
    omega
  · simp [MultiClientSelector.dialCurrent, h1]

/-- One `Select` call on a static selector in its constructed shape, in one of
the three modes: the shape is kept and a peer of the list is dialled. -/
theorem static_select_step (env : Env) (servers : List ServerPeer) (sm : src.SelectMode)
    (s : MultiClientSelector) (options : List Opt) (r : Nat)
    (hne : servers ≠ [])
    (hsm : sm = .RandomSelect ∨ sm = .RoundRobin ∨ sm = .WeightedRoundRobin)
    (hs : StaticShape servers sm s) :
    StaticShape servers sm (MultiClientSelector.Select env s options r).state ∧
    ∃ (i : Nat) (peer : ServerPeer), i < servers.length ∧ servers[i]? = some peer ∧
      MultiClientSelector.Select env s options r
        = connect env (MultiClientSelector.Select env s options r).state
            peer.Network peer.Address ∧
      (sm ≠ .WeightedRoundRobin →
        (MultiClientSelector.Select env s options r).state.currentServer = i) := by
  have hpos : 0 < servers.length := List.length_pos.mpr hne
  have hlen0 : s.len ≠ 0 := by rw [hs.len_eq]; omega
  have hlenpos : (0 : Int) < s.len := by rw [hs.len_eq]; omega
  rcases hsm with h | h | h
  · -- RandomSelect
    have hm : s.SelectMode = .RandomSelect := by rw [hs.mode_eq, h]
    obtain ⟨i, hi, hi0, hi1⟩ := Intn_of_pos s.len r hlenpos
    have hs1 : StaticShape servers sm { s with currentServer := i } :=
      { servers_eq := hs.servers_eq, len_eq := hs.len_eq, mode_eq := hs.mode_eq,
        weighted_eq := hs.weighted_eq, cursor_nonneg := hi0,
        cursor_lt := by rw [← hs.len_eq]; exact hi1 }
    obtain ⟨k, peer, hk, hpeer, hcur, hd⟩ := static_dialCurrent_of_shape env servers sm _ hs1
    have hsel : MultiClientSelector.Select env s options r
        = connect env { s with currentServer := i } peer.Network peer.Address := by
      unfold MultiClientSelector.Select
      rw [if_neg hlen0, if_pos hm, hi]
      exact hd
    rw [hsel]
    exact ⟨hs1, k, peer, hk, hpeer, rfl, fun _ => hcur⟩
  · -- RoundRobin
    have hm : s.SelectMode = .RoundRobin := by rw [hs.mode_eq, h]
    have hs1 : StaticShape servers sm
        { s with currentServer := (s.currentServer + 1).tmod s.len } :=
      { servers_eq := hs.servers_eq, len_eq := hs.len_eq, mode_eq := hs.mode_eq,
        weighted_eq := hs.weighted_eq,
        cursor_nonneg := Int.tmod_nonneg _ (by have := hs.cursor_nonneg; omega),
        cursor_lt := by rw [← hs.len_eq]; exact Int.tmod_lt_of_pos _ hlenpos }
    obtain ⟨k, peer, hk, hpeer, hcur, hd⟩ := static_dialCurrent_of_shape env servers sm _ hs1
    have hsel : MultiClientSelector.Select env s options r
        = connect env { s with currentServer := (s.currentServer + 1).tmod s.len }
            peer.Network peer.Address := by
      unfold MultiClientSelector.Select
      rw [if_neg hlen0, if_neg (by rw [hm]; decide), if_pos hm]
      exact hd
    rw [hsel]
    exact ⟨hs1, k, peer, hk, hpeer, rfl, fun _ => hcur⟩
  · -- WeightedRoundRobin
    have hm : s.SelectMode = .WeightedRoundRobin := by rw [hs.mode_eq, h]
    have hw := hs.weighted_eq h
    rcases nextWeighted_spec s.WeightedServers with ⟨hnil, _⟩ | ⟨ws1, best, j, hnw, hj, hget, hmap⟩
    · rw [hnil] at hw
      simp at hw
      exact absurd hw hne
    · have hs1 : StaticShape servers sm { s with WeightedServers := ws1 } :=
        { servers_eq := hs.servers_eq, len_eq := hs.len_eq, mode_eq := hs.mode_eq,
          weighted_eq := fun _ => by rw [← hw]; exact hmap,
          cursor_nonneg := hs.cursor_nonneg, cursor_lt := hs.cursor_lt }
      have hsel : MultiClientSelector.Select env s options r
          = connect env { s with WeightedServers := ws1 } best.Server.Network
              best.Server.Address := by
        unfold MultiClientSelector.Select
        rw [if_neg hlen0, if_neg (by rw [hm]; decide), if_neg (by rw [hm]; decide),
          if_neg (by rw [hm]; decide), if_pos hm, hnw]
      rw [hsel]
      refine ⟨hs1, j, best.Server, ?_, ?_, rfl, fun hne2 => absurd h hne2⟩
      · rw [← hw]; simpa using hj
      · rw [← hw]; exact hget

/-- The constructor on a non-empty peer list returns a selector in the
constructed shape. -/
theorem newMultiClientSelector_shape (servers : List ServerPeer) (sm : src.SelectMode)
    (dailTimeout r0 : Nat) (hne : servers ≠ []) :
    ∃ s0, NewMultiClientSelector servers sm dailTimeout r0 = .ok s0 ∧
      StaticShape servers sm s0 := by
  have hpos : 0 < servers.length := List.length_pos.mpr hne
  obtain ⟨i, hi, hi0, hi1⟩ := Intn_of_pos (servers.length : Int) r0 (by omega)
  by_cases hw : sm = .WeightedRoundRobin
  · refine ⟨_, by simp only [NewMultiClientSelector, hw, if_true, hi]; rfl, ?_⟩
    exact { servers_eq := rfl, len_eq := rfl, mode_eq := hw.symm,
            weighted_eq := fun _ => by simp [List.map_map, Function.comp_def],
            cursor_nonneg := hi0, cursor_lt := hi1 }
  · refine ⟨_, by simp only [NewMultiClientSelector, hw, if_false, hi]; rfl, ?_⟩
    exact { servers_eq := rfl, len_eq := rfl, mode_eq := rfl,
            weighted_eq := fun h => absurd h hw,
            cursor_nonneg := hi0, cursor_lt := hi1 }

/-- C1: a static selector built by `NewMultiClientSelector` over a non-empty
peer list in mode RandomSelect, RoundRobin or WeightedRoundRobin is built
without a panic, and in every sequence of `Select` calls every call keeps the
peer list, ends without a panic and hands to the connection factory the peer
at an index `i < len(Servers)` (in the first two modes `i` is the cursor the
call leaves). -/
theorem static_select_index_in_bounds (env : Env) (servers : List ServerPeer)
    (sm : src.SelectMode) (dailTimeout r0 : Nat) (calls : List (List Opt × Nat))
    (hne : servers ≠ [])
    (hsm : sm = .RandomSelect ∨ sm = .RoundRobin ∨ sm = .WeightedRoundRobin) :
    ∃ s0, NewMultiClientSelector servers sm dailTimeout r0 = .ok s0 ∧
      ∀ o ∈ MultiClientSelector.selectSeq env s0 calls,
        o.state.Servers = servers ∧ (∀ p, o.ret ≠ .panicked p) ∧
        ∃ (i : Nat) (peer : ServerPeer), i < servers.length ∧ servers[i]? = some peer ∧
          o = connect env o.state peer.Network peer.Address ∧
          (sm ≠ .WeightedRoundRobin → o.state.currentServer = i) := by
  obtain ⟨s0, hnew, hshape⟩ := newMultiClientSelector_shape servers sm dailTimeout r0 hne
  refine ⟨s0, hnew, ?_⟩
  clear hnew
  induction calls generalizing s0 with
  | nil => intro o ho; simp [MultiClientSelector.selectSeq] at ho
  | cons c cs ih =>
    intro o ho
    obtain ⟨hs1, i, peer, hi, hpeer, hsel, hcur⟩ :=
      static_select_step env servers sm s0 c.1 c.2 hne hsm hshape
    simp only [MultiClientSelector.selectSeq, List.mem_cons] at ho
    rcases ho with ho | ho
    · subst ho
      refine ⟨hs1.servers_eq, ?_, i, peer, hi, hpeer, hsel, hcur⟩
      intro p
      rw [hsel]
      exact connect_ret_ne_panicked env _ _ _ p
    · exact ih _ hs1 o ho

/-- Shifting the indices `0 .. n-1` by `a` modulo `n` permutes them. -/
theorem shifted_range_perm (n a : Nat) :
    ((List.range n).map (fun k => (a + k) % n)).Perm (List.range n) := by
  apply List.Subperm.perm_of_length_le
  · apply List.subperm_of_subset
    · apply List.Nodup.map_on _ (List.nodup_range n)
      intro x hx y hy hxy
      rw [List.mem_range] at hx hy
      have h : x ≡ y [MOD n] := Nat.ModEq.add_left_cancel' a hxy
      have h2 : x % n = y % n := h
      rwa [Nat.mod_eq_of_lt hx, Nat.mod_eq_of_lt hy] at h2
    · intro x hx
      rw [List.mem_map] at hx
      obtain ⟨k, hk, rfl⟩ := hx
      rw [List.mem_range] at hk ⊢
      exact Nat.mod_lt _ (by omega)
  · simp

/-- The cursors `(c + 1 + k) mod n` for `k = 0 .. n-1` are the indices
`0 .. n-1`, each once. -/
theorem cursor_cycle_perm (n : Nat) (c : Int) (h0 : 0 ≤ c) :
    ((List.range n).map (fun k : Nat => (c + 1 + (k : Int)) % (n : Int))).Perm
      ((List.range n).map Int.ofNat) := by
  obtain ⟨m, rfl⟩ := Int.eq_ofNat_of_zero_le h0
  have hfun : (fun k : Nat => ((m : Int) + 1 + (k : Int)) % (n : Int))
      = Int.ofNat ∘ (fun k : Nat => (m + 1 + k) % n) := by
    funext k
    simp only [Function.comp]
    show _ = ((((m + 1 + k) % n : Nat)) : Int)
    push_cast
    rfl
  rw [hfun, ← List.map_map]
  exact (shifted_range_perm n (m + 1)).map _

theorem roundRobin_next_cursor (n : Nat) (c : Int) (hn : 1 ≤ n) (h0 : 0 ≤ c) :
    (c + 1).tmod (n : Int) = (c + 1) % (n : Int) ∧ 0 ≤ (c + 1) % (n : Int) ∧
      (c + 1) % (n : Int) < n :=
  ⟨Int.tmod_eq_emod (by omega) (by omega), Int.emod_nonneg _ (by omega),
    Int.emod_lt_of_pos _ (by omega)⟩

/-- One RoundRobin call on the static selector. -/
theorem static_roundRobin_step (env : Env) (n : Nat) (s : MultiClientSelector)
    (options : List Opt) (r : Nat) (hn : 1 ≤ n) (hs : StaticRoundRobin n s) :
    StaticRoundRobin n { s with currentServer := (s.currentServer + 1) % (n : Int) } ∧
    ∃ peer, s.Servers[((s.currentServer + 1) % (n : Int)).toNat]? = some peer ∧
      MultiClientSelector.Select env s options r
        = connect env { s with currentServer := (s.currentServer + 1) % (n : Int) }
            peer.Network peer.Address := by
  obtain ⟨ht, hc0, hc1⟩ := roundRobin_next_cursor n s.currentServer hn hs.cursor_nonneg
  have hlen0 : s.len ≠ 0 := by rw [hs.len_eq]; omega
  obtain ⟨peer, h1, h2, _⟩ := goIndex_of_lt s.Servers ((s.currentServer + 1) % (n : Int)) hc0
    (by rw [hs.servers_len]; exact hc1)
  refine ⟨{ mode_eq := hs.mode_eq, len_eq := hs.len_eq, servers_len := hs.servers_len,
            cursor_nonneg := hc0, cursor_lt := hc1 }, peer, h2, ?_⟩
  unfold MultiClientSelector.Select
  rw [if_neg hlen0, if_neg (by rw [hs.mode_eq]; decide), if_pos hs.mode_eq, hs.len_eq, ht]
  simp [MultiClientSelector.dialCurrent, h1]

/-- One RoundRobin call on the etcd selector. -/
theorem etcd_roundRobin_step (env : Env) (n : Nat) (s : EtcdClientSelector)
    (options : List Opt) (r : Nat) (hn : 1 ≤ n) (hs : EtcdRoundRobin n s) :
    EtcdRoundRobin n { s with currentServer := (s.currentServer + 1) % (n : Int) } ∧
    ∃ server, s.Servers[((s.currentServer + 1) % (n : Int)).toNat]? = some server ∧
      EtcdClientSelector.Select env s options r
        = connectPeer env { s with currentServer := (s.currentServer + 1) % (n : Int) }
            server := by
  obtain ⟨ht, hc0, hc1⟩ := roundRobin_next_cursor n s.currentServer hn hs.cursor_nonneg
  have hlen0 : s.len ≠ 0 := by rw [hs.len_eq]; omega
  obtain ⟨server, h1, h2, _⟩ := goIndex_of_lt s.Servers ((s.currentServer + 1) % (n : Int)) hc0
    (by rw [hs.servers_len]; exact hc1)
  refine ⟨{ mode_eq := hs.mode_eq, len_eq := hs.len_eq, servers_len := hs.servers_len,
            cursor_nonneg := hc0, cursor_lt := hc1 }, server, h2, ?_⟩
  unfold EtcdClientSelector.Select
  rw [if_neg hlen0, if_neg (by rw [hs.mode_eq]; decide), if_pos hs.mode_eq, hs.len_eq, ht]
  simp [EtcdClientSelector.dialCurrent, h1]

theorem cursor_shift (n : Nat) (c : Int) (k : Nat) :
    ((c + 1) % (n : Int) + 1 + (k : Int)) % (n : Int) = (c + 1 + ((k + 1 : Nat) : Int)) % (n : Int) := by
  rw [add_assoc ((c + 1) % (n : Int)), Int.emod_add_emod]
  congr 1
  push_cast
  ring

/-- Sequential RoundRobin calls on the static selector: the cursors left by
the calls and the peer each call dials. -/
theorem static_roundRobin_seq (env : Env) (n : Nat) (hn : 1 ≤ n) :
    ∀ (calls : List (List Opt × Nat)) (s : MultiClientSelector), StaticRoundRobin n s →
      (MultiClientSelector.selectSeq env s calls).map (fun o => o.state.currentServer)
        = (List.range calls.length).map
            (fun k : Nat => (s.currentServer + 1 + (k : Int)) % (n : Int)) ∧
      ∀ o ∈ MultiClientSelector.selectSeq env s calls,
        ∃ peer, s.Servers[o.state.currentServer.toNat]? = some peer ∧
          o = connect env o.state peer.Network peer.Address
  | [], s, _ => by simp [MultiClientSelector.selectSeq]
  | c :: cs, s, hs => by
    obtain ⟨hs1, peer, hpeer, hsel⟩ := static_roundRobin_step env n s c.1 c.2 hn hs
    obtain ⟨ih1, ih2⟩ := static_roundRobin_seq env n hn cs _ hs1
    simp only [MultiClientSelector.selectSeq, hsel]
    refine ⟨?_, ?_⟩
    · simp only [List.map_cons, List.length_cons, List.range_succ_eq_map, List.map_map]
      have hconn : (connect env { s with currentServer := (s.currentServer + 1) % (n : Int) }
          peer.Network peer.Address).state
          = { s with currentServer := (s.currentServer + 1) % (n : Int) } := rfl
      rw [hconn, ih1]
      congr 1
      · simp
      · apply List.map_congr_left
        intro k _
        exact cursor_shift n s.currentServer k
    · intro o ho
      rw [List.mem_cons] at ho
      rcases ho with ho | ho
      · subst ho
        exact ⟨peer, hpeer, rfl⟩
      · exact ih2 o ho

/-- Sequential RoundRobin calls on the etcd selector: the cursors left by the
calls and the peer each call reads. -/
theorem etcd_roundRobin_seq (env : Env) (n : Nat) (hn : 1 ≤ n) :
    ∀ (calls : List (List Opt × Nat)) (s : EtcdClientSelector), EtcdRoundRobin n s →
      (EtcdClientSelector.selectSeq env s calls).map (fun o => o.state.currentServer)
        = (List.range calls.length).map
            (fun k : Nat => (s.currentServer + 1 + (k : Int)) % (n : Int)) ∧
      ∀ o ∈ EtcdClientSelector.selectSeq env s calls,
        ∃ server, s.Servers[o.state.currentServer.toNat]? = some server ∧
          o = connectPeer env o.state server
  | [], s, _ => by simp [EtcdClientSelector.selectSeq]
  | c :: cs, s, hs => by
    obtain ⟨hs1, server, hserver, hsel⟩ := etcd_roundRobin_step env n s c.1 c.2 hn hs
    obtain ⟨ih1, ih2⟩ := etcd_roundRobin_seq env n hn cs _ hs1
    have hconn : (connectPeer env
        ({ s with currentServer := (s.currentServer + 1) % (n : Int) } : EtcdClientSelector)
        server).state = { s with currentServer := (s.currentServer + 1) % (n : Int) } := by
      unfold connectPeer
      split <;> rfl
    simp only [EtcdClientSelector.selectSeq, hsel]
    refine ⟨?_, ?_⟩
    · simp only [List.map_cons, List.length_cons, List.range_succ_eq_map, List.map_map]
      rw [hconn, ih1]
      congr 1
      · simp
      · apply List.map_congr_left
        intro k _
        exact cursor_shift n s.currentServer k
    · intro o ho
      rw [List.mem_cons] at ho
      rcases ho with ho | ho
      · subst ho
        refine ⟨server, ?_, ?_⟩
        · rw [hconn]; exact hserver
        · rw [hconn]
      · rw [hconn] at ho
        exact ih2 o ho

/-- C3: on a static selector and on an etcd selector in RoundRobin mode over
`n >= 1` peers with the cursor `c` in `[0, n)`, a `Select` call sets the cursor
to `(c + 1) mod n` and passes the peer at that index on to the connection step
(leaving a selector of the same kind), and over `n` sequential calls the
cursors the calls leave are the indices `0 .. n-1`, each exactly once, every
call passing on the peer at the cursor it leaves. -/
theorem roundRobin_visits_each_index_once (env : Env) (n : Nat)
    (a : MultiClientSelector) (b : EtcdClientSelector) (calls : List (List Opt × Nat))
    (hn : 1 ≤ n) (ha : StaticRoundRobin n a) (hb : EtcdRoundRobin n b)
    (hcalls : calls.length = n) :
    (∀ options r,
      StaticRoundRobin n (MultiClientSelector.Select env a options r).state ∧
      ∃ peer, a.Servers[((a.currentServer + 1) % (n : Int)).toNat]? = some peer ∧
        MultiClientSelector.Select env a options r
          = connect env { a with currentServer := (a.currentServer + 1) % (n : Int) }
              peer.Network peer.Address) ∧
    (∀ options r,
      EtcdRoundRobin n (EtcdClientSelector.Select env b options r).state ∧
      ∃ server, b.Servers[((b.currentServer + 1) % (n : Int)).toNat]? = some server ∧
        EtcdClientSelector.Select env b options r
          = connectPeer env { b with currentServer := (b.currentServer + 1) % (n : Int) }
              server) ∧
    ((MultiClientSelector.selectSeq env a calls).map (fun o => o.state.currentServer)).Perm
      ((List.range n).map Int.ofNat) ∧
    ((EtcdClientSelector.selectSeq env b calls).map (fun o => o.state.currentServer)).Perm
      ((List.range n).map Int.ofNat) ∧
    (∀ o ∈ MultiClientSelector.selectSeq env a calls,
      ∃ peer, a.Servers[o.state.currentServer.toNat]? = some peer ∧
        o = connect env o.state peer.Network peer.Address) ∧
    (∀ o ∈ EtcdClientSelector.selectSeq env b calls,
      ∃ server, b.Servers[o.state.currentServer.toNat]? = some server ∧
        o = connectPeer env o.state server) := by
  obtain ⟨sa1, sa2⟩ := static_roundRobin_seq env n hn calls a ha
  obtain ⟨sb1, sb2⟩ := etcd_roundRobin_seq env n hn calls b hb
  refine ⟨?_, ?_, ?_, ?_, sa2, sb2⟩
  · intro options r
    obtain ⟨h1, peer, h2, h3⟩ := static_roundRobin_step env n a options r hn ha
    refine ⟨?_, peer, h2, h3⟩
    rw [h3]
    exact h1
  · intro options r
    obtain ⟨h1, server, h2, h3⟩ := etcd_roundRobin_step env n b options r hn hb
    refine ⟨?_, server, h2, h3⟩
    rw [h3]
    have hconn : (connectPeer env
        ({ b with currentServer := (b.currentServer + 1) % (n : Int) } : EtcdClientSelector)
        server).state = { b with currentServer := (b.currentServer + 1) % (n : Int) } := by
      unfold connectPeer
      split <;> rfl
    rw [hconn]
    exact h1
  · rw [sa1, hcalls]
    exact cursor_cycle_perm n a.currentServer ha.cursor_nonneg
  · rw [sb1, hcalls]
    exact cursor_cycle_perm n b.currentServer hb.cursor_nonneg

theorem keepOutsideFrom_eq_filter {α : Type} (ks : List Nat) :
    ∀ (xs : List α) (i : Nat),
      keepOutsideFrom ks i xs
        = ((xs.enumFrom i).filter (fun p => decide (p.1 ∉ ks))).map Prod.snd
  | [], _ => rfl
  | x :: xs, i => by
    simp only [keepOutsideFrom, List.enumFrom_cons, List.filter_cons]
    by_cases h : i ∈ ks
    · simp [h, keepOutsideFrom_eq_filter ks xs (i + 1)]
    · simp [h, keepOutsideFrom_eq_filter ks xs (i + 1)]

theorem keepOutside_eq_from {α : Type} (ks : List Nat) (xs : List α) :
    keepOutside ks xs = keepOutsideFrom ks 0 xs := by
  rw [keepOutsideFrom_eq_filter]
  rfl

theorem keepOutsideFrom_of_all_lt {α : Type} (ks : List Nat) :
    ∀ (xs : List α) (i : Nat), (∀ k ∈ ks, k < i) → keepOutsideFrom ks i xs = xs
  | [], _, _ => rfl
  | x :: xs, i, h => by
    have hi : i ∉ ks := fun hmem => Nat.lt_irrefl _ (h i hmem)
    simp only [keepOutsideFrom, hi, if_false]
    rw [keepOutsideFrom_of_all_lt ks xs (i + 1) (fun k hk => Nat.lt_succ_of_lt (h k hk))]

theorem keepOutsideFrom_map {α β : Type} (f : α → β) (ks : List Nat) :
    ∀ (xs : List α) (i : Nat),
      (keepOutsideFrom ks i xs).map f = keepOutsideFrom ks i (xs.map f)
  | [], _ => rfl
  | x :: xs, i => by
    simp only [keepOutsideFrom, List.map_cons]
    split
    · exact keepOutsideFrom_map f ks xs (i + 1)
    · simp [keepOutsideFrom_map f ks xs (i + 1)]

/-- Erasing the entry at an index `k` above all of `ks` and then keeping the
entries outside `ks` keeps the entries outside `ks` and `k`. -/
theorem keepOutsideFrom_eraseIdx {α : Type} (ks : List Nat) (k : Nat)
    (hks : ∀ j ∈ ks, j < k) :
    ∀ (xs : List α) (i : Nat), i ≤ k →
      keepOutsideFrom ks i (xs.eraseIdx (k - i)) = keepOutsideFrom (ks ++ [k]) i xs
  | [], _, _ => by simp [keepOutsideFrom]
  | x :: xs, i, hik => by
    by_cases hk : k = i
    · subst hk
      have hmem : k ∈ ks ++ [k] := by simp
      simp only [Nat.sub_self, List.eraseIdx_cons_zero, keepOutsideFrom, hmem, if_true]
      rw [keepOutsideFrom_of_all_lt ks xs k hks,
        keepOutsideFrom_of_all_lt (ks ++ [k]) xs (k + 1)]
      intro j hj
      rw [List.mem_append, List.mem_singleton] at hj
      rcases hj with hj | hj
      · exact Nat.lt_succ_of_lt (hks j hj)
      · omega
    · have hlt : i < k := by omega
      have hsub : k - i = (k - (i + 1)) + 1 := by omega
      have hiff : i ∈ ks ++ [k] ↔ i ∈ ks := by
        rw [List.mem_append, List.mem_singleton]
        constructor
        · rintro (h | h)
          · exact h
          · omega
        · exact Or.inl
      rw [hsub, List.eraseIdx_cons_succ]
      simp only [keepOutsideFrom, hiff]
      rw [keepOutsideFrom_eraseIdx ks k hks xs (i + 1) (by omega)]

theorem removeAt_eq_eraseIdx {α : Type} (xs : List α) (k : Nat) (hk : k < xs.length) :
    removeAt xs k = some (xs.eraseIdx k) := by
  unfold removeAt
  rw [if_pos (by omega), List.eraseIdx_eq_take_drop_succ]

/-- The removal loop on indices given in decreasing order, all valid for two
slices of one length: no panic, both slices keep exactly the entries outside
the indices, and both lose as many entries as there are indices. -/
theorem removeEach_decreasing {α β : Type} :
    ∀ (l : List Nat) (xs : List α) (ys : List β),
      l.Pairwise (fun a b => b < a) → (∀ k ∈ l, k < xs.length) → xs.length = ys.length →
      removeEach xs ys l = ((keepOutside l.reverse xs, keepOutside l.reverse ys), none) ∧
      (keepOutside l.reverse xs).length = xs.length - l.length ∧
      (keepOutside l.reverse ys).length = ys.length - l.length
  | [], xs, ys, _, _, _ => by
    simp [removeEach, keepOutside_eq_from, keepOutsideFrom_of_all_lt]
  | k :: l, xs, ys, hp, hv, hlen => by
    rw [List.pairwise_cons] at hp
    have hk : k < xs.length := hv k (by simp)
    have hk2 : k < ys.length := by omega
    have hl : ∀ j ∈ l.reverse, j < k := fun j hj => hp.1 j (List.mem_reverse.mp hj)
    have hv1 : ∀ j ∈ l, j < (xs.eraseIdx k).length := by
      intro j hj
      rw [List.length_eraseIdx, if_pos hk]
      have := hp.1 j hj
      omega
    have hlen1 : (xs.eraseIdx k).length = (ys.eraseIdx k).length := by
      rw [List.length_eraseIdx, List.length_eraseIdx, if_pos hk, if_pos hk2, hlen]
    obtain ⟨ih1, ih2, ih3⟩ :=
      removeEach_decreasing l (xs.eraseIdx k) (ys.eraseIdx k) hp.2 hv1 hlen1
    have ex : keepOutside l.reverse (xs.eraseIdx k) = keepOutside (k :: l).reverse xs := by
      have := keepOutsideFrom_eraseIdx l.reverse k hl xs 0 (Nat.zero_le k)
      simpa [keepOutside_eq_from] using this
    have ey : keepOutside l.reverse (ys.eraseIdx k) = keepOutside (k :: l).reverse ys := by
      have := keepOutsideFrom_eraseIdx l.reverse k hl ys 0 (Nat.zero_le k)
      simpa [keepOutside_eq_from] using this
    refine ⟨?_, ?_, ?_⟩
    · simp only [removeEach, removeAt_eq_eraseIdx xs k hk, removeAt_eq_eraseIdx ys k hk2]
      rw [ih1, ex, ey]
    · rw [← ex, ih2, List.length_eraseIdx, if_pos hk, List.length_cons]
      omega
    · rw [← ey, ih3, List.length_eraseIdx, if_pos hk2, List.length_cons]
      omega

/-- The removal loop as `removeInactiveServers` runs it, on strictly
increasing valid indices. -/
theorem removeEach_reverse_increasing {α β : Type} (ks : List Nat) (xs : List α) (ys : List β)
    (hinc : ks.Pairwise (fun a b => a < b)) (hv : ∀ k ∈ ks, k < xs.length)
    (hlen : xs.length = ys.length) :
    removeEach xs ys ks.reverse = ((keepOutside ks xs, keepOutside ks ys), none) ∧
    (keepOutside ks xs).length = xs.length - ks.length ∧
    (keepOutside ks ys).length = ys.length - ks.length := by
  have h := removeEach_decreasing ks.reverse xs ys (List.pairwise_reverse.mpr hinc)
    (fun k hk => hv k (List.mem_reverse.mp hk)) hlen
  simpa using h

/-- C6: on an etcd and on a ZooKeeper selector whose `Servers` and
`WeightedServers` are index-aligned (so of equal length), for every strictly
increasing list of valid indices, `removeInactiveServers` ends without a panic
and leaves in both lists exactly the entries whose original index is not in
the list, in their original order; both resulting lengths are the original
length minus the number of indices, the lists are still index-aligned, and
nothing else of the selector changes. -/
theorem removeInactiveServers_keeps_the_others (e : EtcdClientSelector)
    (z : ZooKeeperClientSelector) (ks js : List Nat)
    (hks : ks.Pairwise (fun a b => a < b)) (hjs : js.Pairwise (fun a b => a < b))
    (hke : ∀ k ∈ ks, k < e.Servers.length) (hjz : ∀ j ∈ js, j < z.Servers.length)
    (hae : e.WeightedServers.map (fun w => w.Server) = e.Servers)
    (haz : z.WeightedServers.map (fun w => w.Server) = z.Servers) :
    (e.removeInactiveServers ks
        = { state := { e with Servers := keepOutside ks e.Servers,
                              WeightedServers := keepOutside ks e.WeightedServers },
            panicked := none } ∧
      (keepOutside ks e.Servers).length = e.Servers.length - ks.length ∧
      (keepOutside ks e.WeightedServers).length = e.Servers.length - ks.length ∧
      (keepOutside ks e.WeightedServers).map (fun w => w.Server) = keepOutside ks e.Servers) ∧
    (z.removeInactiveServers js
        = { state := { z with Servers := keepOutside js z.Servers,
                              WeightedServers := keepOutside js z.WeightedServers },
            panicked := none } ∧
      (keepOutside js z.Servers).length = z.Servers.length - js.length ∧
      (keepOutside js z.WeightedServers).length = z.Servers.length - js.length ∧
      (keepOutside js z.WeightedServers).map (fun w => w.Server) = keepOutside js z.Servers) := by
  have hle : e.Servers.length = e.WeightedServers.length := by rw [← hae, List.length_map]
  have hlz : z.Servers.length = z.WeightedServers.length := by rw [← haz, List.length_map]
  obtain ⟨e1, e2, e3⟩ := removeEach_reverse_increasing ks e.Servers e.WeightedServers hks hke hle
  obtain ⟨z1, z2, z3⟩ := removeEach_reverse_increasing js z.Servers z.WeightedServers hjs hjz hlz
  refine ⟨⟨?_, e2, by rw [e3, hle], ?_⟩, ⟨?_, z2, by rw [z3, hlz], ?_⟩⟩
  · simp [EtcdClientSelector.removeInactiveServers, e1]
  · rw [keepOutside_eq_from, keepOutsideFrom_map, hae, keepOutside_eq_from]
  · simp [ZooKeeperClientSelector.removeInactiveServers, z1]
  · rw [keepOutside_eq_from, keepOutsideFrom_map, haz, keepOutside_eq_from]

theorem keepOutsideFrom_cons_lt {α : Type} (k : Nat) (ks : List Nat) :
    ∀ (xs : List α) (i : Nat), k < i →
      keepOutsideFrom (k :: ks) i xs = keepOutsideFrom ks i xs
  | [], _, _ => rfl
  | x :: xs, i, h => by
    have hne : i ≠ k := by omega
    simp only [keepOutsideFrom, List.mem_cons, hne, false_or]
    rw [keepOutsideFrom_cons_lt k ks xs (i + 1) (by omega)]

theorem weighLoop_fst {ι : Type} (mk : ι → Weighted String) (inactive : ι → Bool) :
    ∀ (l : List ι) (i : Nat), (weighLoop mk inactive i l).1 = l.map mk
  | [], _ => rfl
  | n :: rest, i => by
    simp [weighLoop, weighLoop_fst mk inactive rest (i + 1)]

/-- The indices `createWeighted` collects: each lies in the range of the loop,
they increase strictly, and keeping the entries outside them keeps exactly the
entries that are not flagged. -/
theorem weighLoop_snd {ι β : Type} (mk : ι → Weighted String) (inactive : ι → Bool)
    (f : ι → β) :
    ∀ (l : List ι) (i : Nat),
      (∀ k ∈ (weighLoop mk inactive i l).2, i ≤ k ∧ k < i + l.length) ∧
      (weighLoop mk inactive i l).2.Pairwise (fun a b => a < b) ∧
      keepOutsideFrom (weighLoop mk inactive i l).2 i (l.map f)
        = (l.filter (fun n => !inactive n)).map f
  | [], _ => by simp [weighLoop, keepOutsideFrom]
  | n :: rest, i => by
    obtain ⟨h1, h2, h3⟩ := weighLoop_snd mk inactive f rest (i + 1)
    have hnot : i ∉ (weighLoop mk inactive (i + 1) rest).2 := by
      intro hmem
      have := (h1 i hmem).1
      omega
    by_cases hin : inactive n = true
    · simp only [weighLoop, hin, if_true, List.map_cons, List.length_cons]
      refine ⟨?_, ?_, ?_⟩
      · intro k hk
        rw [List.mem_cons] at hk
        rcases hk with hk | hk
        · omega
        · have := h1 k hk
          omega
      · rw [List.pairwise_cons]
        refine ⟨fun k hk => ?_, h2⟩
        have := h1 k hk
        omega
      · simp only [keepOutsideFrom, List.mem_cons, true_or, if_true]
        rw [keepOutsideFrom_cons_lt i _ _ (i + 1) (by omega), h3]
        simp [List.filter_cons, hin]
    · have hin2 : inactive n = false := by simpa using hin
      simp only [weighLoop, hin2, List.map_cons, List.length_cons]
      refine ⟨?_, ?_, ?_⟩
      · intro k hk
        have := h1 k (by simpa using hk)
        omega
      · simpa using h2
      · have hnot2 : i ∉ (if false = true then
            i :: (weighLoop mk inactive (i + 1) rest).2
            else (weighLoop mk inactive (i + 1) rest).2) := by simpa using hnot
        simp only [keepOutsideFrom, hnot2, if_false]
        simp only [Bool.false_eq_true, if_false, h3]
        simp [List.filter_cons, hin2]

/-- The flag of `createWeighted` is the negation of its keep test. -/
theorem flaggedInactive_eq (env : Env) (md : String) :
    flaggedInactive env (some md) = !countsAsActive env md := by
  cases hq : env.parseQuery md with
  | none => simp [flaggedInactive, countsAsActive, hq]
  | some v =>
    by_cases h1 : v.Get "state" = ""
    · simp [flaggedInactive, countsAsActive, hq, h1]
    · by_cases h2 : v.Get "state" = "active"
      · simp [flaggedInactive, countsAsActive, hq, h2]
      · simp [flaggedInactive, countsAsActive, hq, h1, h2]

/-- What `removeInactiveServers` leaves after a pass of `createWeighted` over
the entries `l`, when `Servers` holds one peer string per entry. -/
theorem removeEach_after_weighLoop {ι : Type} (mk : ι → Weighted String)
    (inactive : ι → Bool) (f : ι → String) (l : List ι) :
    removeEach (l.map f) (weighLoop mk inactive 0 l).1 (weighLoop mk inactive 0 l).2.reverse
      = (((l.filter (fun n => !inactive n)).map f,
          (l.filter (fun n => !inactive n)).map mk), none) := by
  obtain ⟨h1, h2, h3⟩ := weighLoop_snd mk inactive f l 0
  obtain ⟨_, _, h4⟩ := weighLoop_snd mk inactive mk l 0
  rw [weighLoop_fst]
  have hv : ∀ k ∈ (weighLoop mk inactive 0 l).2, k < (l.map f).length := by
    intro k hk
    have := h1 k hk
    simp only [List.length_map]
    omega
  obtain ⟨e1, _, _⟩ := removeEach_reverse_increasing (weighLoop mk inactive 0 l).2
    (l.map f) (l.map mk) h2 hv (by simp)
  rw [e1, keepOutside_eq_from, keepOutside_eq_from, h3, h4]

/-- The method `createWeighted` of the etcd selector, called as `pullServers`
calls it: both slices keep the entries that count as active. -/
theorem etcd_createWeighted_eq (env : Env) (s : EtcdClientSelector) (nodes : List Node) :
    EtcdClientSelector.createWeighted env
        { s with Servers := nodes.map (fun n => strings.TrimPrefix n.Key (s.BasePath ++ "/")) }
        nodes
      = { state := { s with
            Servers := (nodes.filter (fun n => countsAsActive env n.Value)).map
              (fun n => strings.TrimPrefix n.Key (s.BasePath ++ "/"))
            WeightedServers := (nodes.filter (fun n => countsAsActive env n.Value)).map
              (fun n => weighEntry env (strings.TrimPrefix n.Key (s.BasePath ++ "/"))
                (some n.Value)) }
          panicked := none } := by
  have h := removeEach_after_weighLoop
    (fun n : Node => weighEntry env (strings.TrimPrefix n.Key (s.BasePath ++ "/")) (some n.Value))
    (fun n : Node => flaggedInactive env (some n.Value))
    (fun n : Node => strings.TrimPrefix n.Key (s.BasePath ++ "/")) nodes
  have hf : (fun n : Node => !flaggedInactive env (some n.Value))
      = (fun n : Node => countsAsActive env n.Value) := by
    funext n
    rw [flaggedInactive_eq, Bool.not_not]
  rw [hf] at h
  simp only [EtcdClientSelector.createWeighted, EtcdClientSelector.removeInactiveServers, h]

/-- The method `createWeighted` of the ZooKeeper selector: both slices keep the
entries of `Servers` whose metadata is not flagged. -/
theorem zk_createWeighted_eq (env : Env) (s : ZooKeeperClientSelector) (view : ZkView) :
    ZooKeeperClientSelector.createWeighted env s view
      = { state := { s with
            Servers := s.Servers.filter
              (fun ss => !flaggedInactive env (view.get (s.BasePath ++ "/" ++ ss)))
            WeightedServers := (s.Servers.filter
              (fun ss => !flaggedInactive env (view.get (s.BasePath ++ "/" ++ ss)))).map
              (fun ss => weighEntry env ss (view.get (s.BasePath ++ "/" ++ ss))) }
          panicked := none } := by
  have h := removeEach_after_weighLoop
    (fun ss : String => weighEntry env ss (view.get (s.BasePath ++ "/" ++ ss)))
    (fun ss : String => flaggedInactive env (view.get (s.BasePath ++ "/" ++ ss)))
    (fun ss : String => ss) s.Servers
  simp only [List.map_id'] at h
  simp only [ZooKeeperClientSelector.createWeighted,
    ZooKeeperClientSelector.removeInactiveServers, h]

theorem weighEntry_server (env : Env) (server : String) (md : Option String) :
    (weighEntry env server md).Server = server := by
  unfold weighEntry
  cases md with
  | none => rfl
  | some m =>
    simp only
    cases env.parseQuery m with
    | none => rfl
    | some v =>
      simp only
      split
      · split <;> rfl
      · rfl

/-- The method `pullServers` of the etcd selector on a non-empty listing, with
`kept` the listed entries that count as active: both slices are rebuilt from
`kept`, the cached length is their length, and the cursor is reduced modulo
it, which panics when `kept` is empty. -/
theorem etcd_pullServers_listing (env : Env) (s : EtcdClientSelector) (nodes : List Node)
    (hne : nodes ≠ []) :
    EtcdClientSelector.pullServers env s (.resp (some nodes))
      = if (nodes.filter (fun n => countsAsActive env n.Value)) = [] then
          { state := { s with Servers := [], WeightedServers := [], len := 0 },
            panicked := some .divideByZero }
        else
          { state := { s with
              Servers := (nodes.filter (fun n => countsAsActive env n.Value)).map
                (fun n => strings.TrimPrefix n.Key (s.BasePath ++ "/"))
              WeightedServers := (nodes.filter (fun n => countsAsActive env n.Value)).map
                (fun n => weighEntry env (strings.TrimPrefix n.Key (s.BasePath ++ "/"))
                  (some n.Value))
              len := ((nodes.filter (fun n => countsAsActive env n.Value)).length : Int)
              currentServer := s.currentServer.tmod
                ((nodes.filter (fun n => countsAsActive env n.Value)).length : Int) },
            panicked := none } := by
  have hpos : nodes.length > 0 := List.length_pos.mpr hne
  simp only [EtcdClientSelector.pullServers, hpos, if_true, etcd_createWeighted_eq]
  by_cases hk : (nodes.filter (fun n => countsAsActive env n.Value)) = []
  · simp [hk]
  · have hl : ((nodes.filter (fun n => countsAsActive env n.Value)).length : Int) ≠ 0 := by
      have := List.length_pos.mpr hk
      omega
    simp [hk, hl]

/-- Counterexample to C7 as stated: the metadata `state=inactive&weight=%zz`
carries the state `inactive`, yet `url.ParseQuery` rejects it for the malformed
escape, `createWeighted` then skips its state test, and the pull ends without a
panic with the entry in `Servers` and in `WeightedServers`. -/
theorem etcd_pull_keeps_unparsable_inactive_entry :
    statedState etcdInactiveBadEscape.Value = "inactive" ∧
    demoEnv.parseQuery etcdInactiveBadEscape.Value = none ∧
    (EtcdClientSelector.pullServers demoEnv emptyEtcd
        (.resp (some [etcdInactiveBadEscape]))).panicked = none ∧
    (EtcdClientSelector.pullServers demoEnv emptyEtcd
        (.resp (some [etcdInactiveBadEscape]))).state.Servers = ["tcp@127.0.0.1:8972"] ∧
    (EtcdClientSelector.pullServers demoEnv emptyEtcd
        (.resp (some [etcdInactiveBadEscape]))).state.WeightedServers.map (fun w => w.Server)
      = ["tcp@127.0.0.1:8972"] := by
  decide

/-- C7 (amended): after `pullServers` of the etcd selector on a non-empty
listing, `Servers` holds, in listing order, exactly the (trimmed) keys of the
listed entries that pass the keep test: those whose metadata `url.ParseQuery`
rejects, and those whose metadata it accepts with no state, an empty state or
the state `active`.  `WeightedServers` holds the records of exactly the same
entries, so an entry whose metadata is accepted with any other state is in
neither.  The pull ends without a panic when at least one entry is kept. -/
theorem etcd_pullServers_keeps_active_entries (env : Env) (s : EtcdClientSelector)
    (nodes : List Node) (hne : nodes ≠ []) :
    (∀ md, countsAsActive env md = true ↔
      (env.parseQuery md = none ∨
        ∃ v, env.parseQuery md = some v ∧ (v.Get "state" = "" ∨ v.Get "state" = "active"))) ∧
    (EtcdClientSelector.pullServers env s (.resp (some nodes))).state.Servers
      = (nodes.filter (fun n => countsAsActive env n.Value)).map
          (fun n => strings.TrimPrefix n.Key (s.BasePath ++ "/")) ∧
    (EtcdClientSelector.pullServers env s (.resp (some nodes))).state.WeightedServers.map
        (fun w => w.Server)
      = (nodes.filter (fun n => countsAsActive env n.Value)).map
          (fun n => strings.TrimPrefix n.Key (s.BasePath ++ "/")) ∧
    ((∃ n ∈ nodes, countsAsActive env n.Value = true) →
      (EtcdClientSelector.pullServers env s (.resp (some nodes))).panicked = none) := by
  refine ⟨?_, ?_⟩
  · intro md
    unfold countsAsActive
    cases env.parseQuery md with
    | none => simp
    | some v => simp
  rw [etcd_pullServers_listing env s nodes hne]
  by_cases hk : (nodes.filter (fun n => countsAsActive env n.Value)) = []
  · rw [if_pos hk]
    refine ⟨by simp [hk], by simp [hk], ?_⟩
    rintro ⟨n, hn, hact⟩
    have : n ∈ nodes.filter (fun n => countsAsActive env n.Value) :=
      List.mem_filter.mpr ⟨hn, hact⟩
    rw [hk] at this
    simp at this
  · rw [if_neg hk]
    refine ⟨rfl, ?_, fun _ => rfl⟩
    simp [List.map_map, Function.comp_def, weighEntry_server]

theorem runSteps_invariant {σ ι : Type} (step : σ → ι → Step σ) (P : σ → Prop)
    (hstep : ∀ s i, P s → P (step s i).state) :
    ∀ (inputs : List ι) (s : σ), P s → P (runSteps step s inputs).state
  | [], _, h => h
  | i :: rest, s, h => by
    unfold runSteps
    simp only
    split
    · exact hstep s i h
    · exact runSteps_invariant step P hstep rest _ (hstep s i h)

/-- A pull keeps an etcd selector index-aligned, whatever the reply. -/
theorem etcd_pullServers_aligned (env : Env) (s : EtcdClientSelector) (reply : GetReply)
    (hs : EtcdAligned s) : EtcdAligned (EtcdClientSelector.pullServers env s reply).state := by
  cases reply with
  | failed msg => exact hs
  | resp r =>
    cases r with
    | none => exact hs
    | some nodes =>
      by_cases hne : nodes = []
      · subst hne
        exact hs
      · rw [etcd_pullServers_listing env s nodes hne]
        split
        · exact { servers_eq := rfl, len_eq := rfl }
        · exact { servers_eq := by
                    simp [List.map_map, Function.comp_def, weighEntry_server]
                  len_eq := by simp }

/-- The state `start` leaves a ZooKeeper selector in is index-aligned and its
cached length is the length of `Servers`. -/
theorem zk_start_aligned (env : Env) (s : ZooKeeperClientSelector) (view : ZkView) :
    ZkAligned (ZooKeeperClientSelector.start env s false view).state ∧
    (ZooKeeperClientSelector.start env s false view).state.len
      = (ZooKeeperClientSelector.start env s false view).state.Servers.length := by
  simp only [ZooKeeperClientSelector.start, zk_createWeighted_eq, ZkAligned]
  simp only [Bool.false_eq_true, if_false]
  split
  · simp [List.map_map, Function.comp_def, weighEntry_server]
  · simp [List.map_map, Function.comp_def, weighEntry_server]

/-- A round of `watchPath` in WeightedRoundRobin mode leaves the two slices
index-aligned and keeps the mode. -/
theorem zk_watchRound_weighted (env : Env) (s : ZooKeeperClientSelector) (view : ZkView)
    (hm : s.SelectMode = .WeightedRoundRobin) :
    ZkAligned (ZooKeeperClientSelector.watchRound env s view).state ∧
    (ZooKeeperClientSelector.watchRound env s view).state.SelectMode = .WeightedRoundRobin := by
  simp only [ZooKeeperClientSelector.watchRound, hm, if_true, zk_createWeighted_eq, ZkAligned]
  split
  · simp [List.map_map, Function.comp_def, weighEntry_server, hm]
  · simp [List.map_map, Function.comp_def, weighEntry_server, hm]

/-- Counterexample to C4 as stated: a ZooKeeper selector built in RoundRobin
mode over one child and refreshed by one round of `watchPath` that lists two
children has two entries in `Servers` and one in `WeightedServers`. -/
theorem zk_watchPath_leaves_weighted_stale :
    zkGrown.panicked = none ∧
    zkGrown.state.Servers = ["tcp@127.0.0.1:8972", "tcp@127.0.0.1:8973"] ∧
    zkGrown.state.WeightedServers.map (fun w => w.Server) = ["tcp@127.0.0.1:8972"] ∧
    zkGrown.state.Servers.length ≠ zkGrown.state.WeightedServers.length := by
  decide

theorem zk_start_mode (env : Env) (s : ZooKeeperClientSelector) (view : ZkView) :
    (ZooKeeperClientSelector.start env s false view).state.SelectMode = s.SelectMode := by
  simp only [ZooKeeperClientSelector.start, zk_createWeighted_eq]
  simp only [Bool.false_eq_true, if_false]
  split <;> rfl

/-- Rounds of `watchPath` in WeightedRoundRobin mode, at least one of them:
whatever the selector held before, its two slices end index-aligned. -/
theorem zk_watchPath_weighted_cons (env : Env) (z : ZooKeeperClientSelector) (v : ZkView)
    (vs : List ZkView) (hz : z.SelectMode = .WeightedRoundRobin) :
    ZkAligned (ZooKeeperClientSelector.watchPath env z (v :: vs)).state := by
  have h1 := zk_watchRound_weighted env z v hz
  unfold ZooKeeperClientSelector.watchPath runSteps
  simp only
  split
  · exact h1.1
  · exact (runSteps_invariant (ZooKeeperClientSelector.watchRound env)
      (fun s => ZkAligned s ∧ s.SelectMode = .WeightedRoundRobin)
      (fun s i hs => zk_watchRound_weighted env s i hs.2) vs _ h1).1

/-- C4 (amended): an etcd selector is index-aligned in every state reached by
construction and any sequence of pulls, in every mode: `Servers` and
`WeightedServers` have one length, the cached `len` is that length, and
`WeightedServers[i]` holds `Servers[i]`.  A ZooKeeper selector is so in the
state `start` leaves at construction, in every mode.  In WeightedRoundRobin
mode the ZooKeeper `Servers` and `WeightedServers` have one length and are
index-aligned after construction followed by any rounds of `watchPath`, and
after one or more rounds of `watchPath` on any selector, aligned before or
not. -/
theorem registry_selectors_index_alignment (env : Env)
    (etcdServers : List String) (basePath : String) (sm : src.SelectMode) (dailTimeout : Nat)
    (newFailed : Bool) (reply : GetReply) (replies : List GetReply)
    (zkServers : List String) (zkBase : String) (zsm : src.SelectMode) (view : ZkView)
    (views : List ZkView) (z : ZooKeeperClientSelector) (v : ZkView) (vs : List ZkView)
    (hz : z.SelectMode = .WeightedRoundRobin) :
    ((EtcdClientSelector.watch env
          (NewEtcdClientSelector env etcdServers basePath sm dailTimeout newFailed reply).state
          replies).state.Servers.length
        = (EtcdClientSelector.watch env
          (NewEtcdClientSelector env etcdServers basePath sm dailTimeout newFailed reply).state
          replies).state.WeightedServers.length ∧
      (EtcdClientSelector.watch env
          (NewEtcdClientSelector env etcdServers basePath sm dailTimeout newFailed reply).state
          replies).state.len
        = (EtcdClientSelector.watch env
          (NewEtcdClientSelector env etcdServers basePath sm dailTimeout newFailed reply).state
          replies).state.Servers.length ∧
      (EtcdClientSelector.watch env
          (NewEtcdClientSelector env etcdServers basePath sm dailTimeout newFailed reply).state
          replies).state.WeightedServers.map (fun w => w.Server)
        = (EtcdClientSelector.watch env
          (NewEtcdClientSelector env etcdServers basePath sm dailTimeout newFailed reply).state
          replies).state.Servers) ∧
    ((NewZooKeeperClientSelector env zkServers zkBase zsm dailTimeout false view).state.Servers.length
        = (NewZooKeeperClientSelector env zkServers zkBase zsm dailTimeout false
            view).state.WeightedServers.length ∧
      (NewZooKeeperClientSelector env zkServers zkBase zsm dailTimeout false view).state.len
        = (NewZooKeeperClientSelector env zkServers zkBase zsm dailTimeout false
            view).state.Servers.length ∧
      (NewZooKeeperClientSelector env zkServers zkBase zsm dailTimeout false
          view).state.WeightedServers.map (fun w => w.Server)
        = (NewZooKeeperClientSelector env zkServers zkBase zsm dailTimeout false
            view).state.Servers) ∧
    ((ZooKeeperClientSelector.watchPath env
          (NewZooKeeperClientSelector env zkServers zkBase .WeightedRoundRobin dailTimeout false
            view).state views).state.Servers.length
        = (ZooKeeperClientSelector.watchPath env
          (NewZooKeeperClientSelector env zkServers zkBase .WeightedRoundRobin dailTimeout false
            view).state views).state.WeightedServers.length ∧
      (ZooKeeperClientSelector.watchPath env
          (NewZooKeeperClientSelector env zkServers zkBase .WeightedRoundRobin dailTimeout false
            view).state views).state.WeightedServers.map (fun w => w.Server)
        = (ZooKeeperClientSelector.watchPath env
          (NewZooKeeperClientSelector env zkServers zkBase .WeightedRoundRobin dailTimeout false
            view).state views).state.Servers) ∧
    ((ZooKeeperClientSelector.watchPath env z (v :: vs)).state.Servers.length
        = (ZooKeeperClientSelector.watchPath env z (v :: vs)).state.WeightedServers.length ∧
      (ZooKeeperClientSelector.watchPath env z (v :: vs)).state.WeightedServers.map
          (fun w => w.Server)
        = (ZooKeeperClientSelector.watchPath env z (v :: vs)).state.Servers) := by
  refine ⟨?_, ?_, ?_, ?_⟩
  · have h0 : EtcdAligned
        (NewEtcdClientSelector env etcdServers basePath sm dailTimeout newFailed reply).state := by
      unfold NewEtcdClientSelector EtcdClientSelector.start
      split
      · exact { servers_eq := rfl, len_eq := rfl }
      · exact etcd_pullServers_aligned env _ reply { servers_eq := rfl, len_eq := rfl }
    have h := runSteps_invariant (EtcdClientSelector.pullServers env) EtcdAligned
      (fun s i hs => etcd_pullServers_aligned env s i hs) replies _ h0
    refine ⟨?_, h.len_eq, h.servers_eq⟩
    have := congrArg List.length h.servers_eq
    simpa using this.symm
  · obtain ⟨h1, h2⟩ := zk_start_aligned env
      { ZKServers := zkServers, BasePath := zkBase, Servers := [], WeightedServers := [],
        SelectMode := zsm, dailTimeout := dailTimeout, currentServer := 0, len := 0,
        HashServiceAndArgs := none } view
    refine ⟨?_, h2, h1⟩
    have := congrArg List.length h1
    simpa using this.symm
  · obtain ⟨h1, _⟩ := zk_start_aligned env
      { ZKServers := zkServers, BasePath := zkBase, Servers := [], WeightedServers := [],
        SelectMode := .WeightedRoundRobin, dailTimeout := dailTimeout, currentServer := 0,
        len := 0, HashServiceAndArgs := none } view
    have hm := zk_start_mode env
      { ZKServers := zkServers, BasePath := zkBase, Servers := [], WeightedServers := [],
        SelectMode := .WeightedRoundRobin, dailTimeout := dailTimeout, currentServer := 0,
        len := 0, HashServiceAndArgs := none } view
    have h := runSteps_invariant (ZooKeeperClientSelector.watchRound env)
      (fun s => ZkAligned s ∧ s.SelectMode = .WeightedRoundRobin)
      (fun s i hs => zk_watchRound_weighted env s i hs.2) views _ ⟨h1, hm⟩
    refine ⟨?_, h.1⟩
    have := congrArg List.length h.1
    simpa using this.symm
  · have h := zk_watchPath_weighted_cons env z v vs hz
    refine ⟨?_, h⟩
    have := congrArg List.length h
    simpa using this.symm

/-- C5, evaluated where the code departs from it.  A ZooKeeper selector holds
three peers with its cursor on index 2; the round of `watchPath` that finds the
third peer flagged inactive ends without a panic and leaves two peers, the
cached length 3 and the cursor still on 2 (not `2 mod 2 = 0`); the next
`Select` in RandomSelect mode with the draw 2 indexes `Servers` out of bounds.
An etcd selector holds three peers with its cursor on 2; the pull that finds
all three flagged inactive empties `Servers` and panics on the modulo by the
length 0, the cursor still on 2. -/
theorem refresh_leaves_cursor_out_of_bounds :
    (zkCursorOnLast.Servers = threePeers ∧ zkCursorOnLast.currentServer = 2 ∧
      zkCursorOnLast.len = 3) ∧
    (zkShrunk.panicked = none ∧
      zkShrunk.state.Servers = ["tcp@127.0.0.1:8972", "tcp@127.0.0.1:8973"] ∧
      zkShrunk.state.len = 3 ∧ zkShrunk.state.currentServer = 2 ∧
      ¬ (zkShrunk.state.currentServer < zkShrunk.state.Servers.length)) ∧
    (ZooKeeperClientSelector.Select demoEnv (zkShrunk.state.SetSelectMode .RandomSelect)
        [] 2).ret = .panicked .indexOutOfRange ∧
    ((EtcdClientSelector.pullServers demoEnv etcdCursorOnLast etcdAllInactive).panicked
        = some .divideByZero ∧
      (EtcdClientSelector.pullServers demoEnv etcdCursorOnLast etcdAllInactive).state.Servers
        = [] ∧
      (EtcdClientSelector.pullServers demoEnv etcdCursorOnLast
        etcdAllInactive).state.currentServer = 2) := by
  decide

/-- C8, evaluated where the code departs from it: for a registry entry whose
metadata is `weight=abc`, `createWeighted` (reached through `pullServers` of
the etcd selector and through `start` of the ZooKeeper selector) stores the
zero that `strconv.Atoi` returns with its error, so the record has
`Weight = 0` and `EffectiveWeight = 0`, not the default 1. -/
theorem malformed_weight_overwrites_default :
    (EtcdClientSelector.pullServers demoEnv emptyEtcd etcdBadWeight).state.WeightedServers
      = [{ Server := "tcp@127.0.0.1:8972", Weight := 0, EffectiveWeight := 0,
           CurrentWeight := 0 }] ∧
    (ZooKeeperClientSelector.start demoEnv emptyZk false zkBadWeight).state.WeightedServers
      = [{ Server := "tcp@127.0.0.1:8972", Weight := 0, EffectiveWeight := 0,
           CurrentWeight := 0 }] := by
  decide

/-- C9, evaluated where the code departs from it.  A failed registry call
leaves the Consul selector and the etcd selector exactly as they were.  On the
ZooKeeper selector a round of `watchPath` whose `ChildrenW` call fails
replaces the two cached peers by the empty result, sets the cached length to 0
and panics on the modulo by it. -/
theorem failed_refresh_behaviour (env : Env) (c : ConsulClientSelector)
    (e : EtcdClientSelector) (msg : String) :
    ConsulClientSelector.pullServers c (.error msg) = { state := c, panicked := none } ∧
    EtcdClientSelector.pullServers env e (.failed msg) = { state := e, panicked := none } ∧
    (demoZk.Servers = ["tcp@127.0.0.1:8972", "tcp@127.0.0.1:8973"] ∧ demoZk.len = 2 ∧
      (ZooKeeperClientSelector.watchRound demoEnv demoZk zkFailedListing).panicked
        = some .divideByZero ∧
      (ZooKeeperClientSelector.watchRound demoEnv demoZk zkFailedListing).state.Servers = [] ∧
      (ZooKeeperClientSelector.watchRound demoEnv demoZk zkFailedListing).state.len = 0) := by
  refine ⟨rfl, rfl, ?_⟩
  decide

/-- C20: a `pullServers` of the etcd selector whose registry call succeeds with
a listing of zero entries returns without a panic and leaves the whole
selector (`Servers`, `WeightedServers`, the cached length, the cursor) as it
was, so the next `Select` answers as it would have before the pull. -/
theorem etcd_pullServers_empty_listing_keeps_all (env : Env) (s : EtcdClientSelector)
    (options : List Opt) (r : Nat) :
    EtcdClientSelector.pullServers env s (.resp (some [])) = { state := s, panicked := none } ∧
    EtcdClientSelector.Select env
        (EtcdClientSelector.pullServers env s (.resp (some []))).state options r
      = EtcdClientSelector.Select env s options r := by
  have h : EtcdClientSelector.pullServers env s (.resp (some []))
      = { state := s, panicked := none } := by
    simp [EtcdClientSelector.pullServers]
  exact ⟨h, by rw [h]⟩

theorem consul_pullServers_len (s : ConsulClientSelector)
    (reply : Except String (List (String × AgentService))) :
    (ConsulClientSelector.pullServers s reply).state.len = s.len := by
  cases reply <;> rfl

/-- C19: the Consul selector never assigns its cached length.  After
`NewConsulClientSelector` and any sequence of successful or failed pulls the
cached length is 0, and `Select` answers "No available service" in every mode
without calling the connection factory; so it does on the sample selector whose
pull found a matching service. -/
theorem consul_len_stays_zero (env : Env) (consulAddress serviceName : String)
    (sm sm2 : src.SelectMode) (dailTimeout : Nat)
    (reply : Except String (List (String × AgentService)))
    (replies : List (Except String (List (String × AgentService))))
    (options : List Opt) (r : Nat) :
    (ConsulClientSelector.refreshes
        (NewConsulClientSelector consulAddress serviceName sm dailTimeout reply).state
        replies).state.len = 0 ∧
    ConsulClientSelector.Select env
        ((ConsulClientSelector.refreshes
          (NewConsulClientSelector consulAddress serviceName sm dailTimeout reply).state
          replies).state.SetSelectMode sm2) options r
      = { state := (ConsulClientSelector.refreshes
            (NewConsulClientSelector consulAddress serviceName sm dailTimeout reply).state
            replies).state.SetSelectMode sm2
          dialed := []
          ret := .error .noAvailableService } ∧
    ((NewConsulClientSelector "127.0.0.1:8500" "Arith" .RandomSelect 10
        (.ok [("Arith-1", { Address := "tcp@127.0.0.1:8972", Tags := [] })])).state.Servers
      = [some { Address := "tcp@127.0.0.1:8972", Tags := [] }] ∧
     (ConsulClientSelector.Select demoEnv
        (NewConsulClientSelector "127.0.0.1:8500" "Arith" .RandomSelect 10
          (.ok [("Arith-1", { Address := "tcp@127.0.0.1:8972", Tags := [] })])).state
        [] 0).ret = .error .noAvailableService) := by
  have h0 : (NewConsulClientSelector consulAddress serviceName sm dailTimeout reply).state.len
      = 0 := by
    unfold NewConsulClientSelector
    rw [consul_pullServers_len]
  have h : (ConsulClientSelector.refreshes
      (NewConsulClientSelector consulAddress serviceName sm dailTimeout reply).state
      replies).state.len = 0 :=
    runSteps_invariant ConsulClientSelector.pullServers (fun s => s.len = 0)
      (fun s i hs => (consul_pullServers_len s i).trans hs) replies _ h0
  refine ⟨h, ?_, by decide, by decide⟩
  simp [ConsulClientSelector.Select, ConsulClientSelector.SetSelectMode, h]

theorem allClientsLoop_eq (env : Env) :
    ∀ (servers : List ServerPeer) (clients : List Conn),
      MultiClientSelector.allClientsLoop env clients servers
        = clients ++ servers.filterMap (opened env)
  | [], clients => by simp [MultiClientSelector.allClientsLoop]
  | sv :: rest, clients => by
    unfold MultiClientSelector.allClientsLoop
    cases h : env.dial sv.Network sv.Address with
    | ok c =>
      simp only
      rw [allClientsLoop_eq env rest, List.filterMap_cons]
      simp [opened, h]
    | error e =>
      simp only
      rw [allClientsLoop_eq env rest, List.filterMap_cons]
      simp [opened, h]

/-- C14: `AllClients` of the static selector returns, in peer order, exactly
the connections the factory opens for the peers it succeeds on; the number of
connections is the number of such peers, at most the number of peers; a failing
peer contributes nothing, and the result carries no error. -/
theorem static_allClients_are_the_opened (env : Env) (s : MultiClientSelector) :
    MultiClientSelector.AllClients env s = s.Servers.filterMap (opened env) ∧
    (MultiClientSelector.AllClients env s).length
      = s.Servers.countP (fun sv => (opened env sv).isSome) ∧
    (MultiClientSelector.AllClients env s).length ≤ s.Servers.length := by
  have h : MultiClientSelector.AllClients env s = s.Servers.filterMap (opened env) := by
    unfold MultiClientSelector.AllClients
    rw [allClientsLoop_eq]
    simp
  refine ⟨h, ?_, ?_⟩
  · rw [h]
    induction s.Servers with
    | nil => rfl
    | cons sv rest ih =>
      rw [List.filterMap_cons, List.countP_cons]
      cases hsv : opened env sv with
      | none => simp [ih]
      | some c => simp [ih]
  · rw [h]
    exact List.length_filterMap_le _ _

/-- C17: in `createWeighted` of the etcd and ZooKeeper selectors the integer
`strconv.Atoi` returns is stored only when `Atoi` reports an error.  For an
entry whose metadata parses and carries a `weight` that `Atoi` accepts, the
record keeps `Weight = 1` and `EffectiveWeight = 1` whatever the parsed value
(while a `weight` that `Atoi` rejects gets the integer returned with the
error); so the record of every such entry that is kept by an etcd pull, and of every
such child kept by the ZooKeeper `start`, is the default one. -/
theorem valid_weight_is_dropped (env : Env) (md : String) (v : Values)
    (e : EtcdClientSelector) (nodes : List Node) (n : Node)
    (z : ZooKeeperClientSelector) (view : ZkView) (child : String)
    (hparse : env.parseQuery md = some v) (hw : v.Get "weight" ≠ "")
    (hvalid : (env.atoi (v.Get "weight")).2 = false)
    (hn : n ∈ nodes) (hnmd : n.Value = md) (hnact : countsAsActive env md = true)
    (hc : child ∈ view.children) (hcmd : view.get (z.BasePath ++ "/" ++ child) = some md) :
    (∀ server, weighEntry env server (some md)
      = { Server := server, Weight := 1, EffectiveWeight := 1, CurrentWeight := 0 }) ∧
    (∀ server md2 v2, env.parseQuery md2 = some v2 → v2.Get "weight" ≠ "" →
      (env.atoi (v2.Get "weight")).2 = true →
      weighEntry env server (some md2)
        = { Server := server, Weight := (env.atoi (v2.Get "weight")).1,
            EffectiveWeight := (env.atoi (v2.Get "weight")).1, CurrentWeight := 0 }) ∧
    ({ Server := strings.TrimPrefix n.Key (e.BasePath ++ "/"), Weight := 1,
       EffectiveWeight := 1, CurrentWeight := 0 } : Weighted String)
      ∈ (EtcdClientSelector.pullServers env e (.resp (some nodes))).state.WeightedServers ∧
    ({ Server := child, Weight := 1, EffectiveWeight := 1, CurrentWeight := 0 }
        : Weighted String)
      ∈ (ZooKeeperClientSelector.start env z false view).state.WeightedServers := by
  have hentry : ∀ server, weighEntry env server (some md)
      = { Server := server, Weight := 1, EffectiveWeight := 1, CurrentWeight := 0 } := by
    intro server
    simp [weighEntry, hparse, hw, hvalid]
  refine ⟨hentry, ?_, ?_, ?_⟩
  · intro server md2 v2 h1 h2 h3
    simp [weighEntry, h1, h2, h3]
  · have hne : nodes ≠ [] := List.ne_nil_of_mem hn
    have hmem : n ∈ nodes.filter (fun n => countsAsActive env n.Value) :=
      List.mem_filter.mpr ⟨hn, by rw [hnmd]; exact hnact⟩
    have hk : (nodes.filter (fun n => countsAsActive env n.Value)) ≠ [] :=
      List.ne_nil_of_mem hmem
    rw [etcd_pullServers_listing env e nodes hne, if_neg hk]
    simp only
    rw [List.mem_map]
    exact ⟨n, hmem, by rw [hnmd, hentry]⟩
  · have hflag : flaggedInactive env (view.get (z.BasePath ++ "/" ++ child)) = false := by
      rw [hcmd, flaggedInactive_eq, hnact]
      rfl
    have hmem : child ∈ view.children.filter
        (fun ss => !flaggedInactive env (view.get (z.BasePath ++ "/" ++ ss))) :=
      List.mem_filter.mpr ⟨hc, by simp [hflag]⟩
    have hrec : ({ Server := child, Weight := 1, EffectiveWeight := 1, CurrentWeight := 0 }
        : Weighted String)
        ∈ (view.children.filter
            (fun ss => !flaggedInactive env (view.get (z.BasePath ++ "/" ++ ss)))).map
          (fun ss => weighEntry env ss (view.get (z.BasePath ++ "/" ++ ss))) := by
      rw [List.mem_map]
      exact ⟨child, hmem, by rw [hcmd, hentry]⟩
    simp only [ZooKeeperClientSelector.start, zk_createWeighted_eq]
    simp only [Bool.false_eq_true, if_false]
    split
    · exact hrec
    · exact hrec

/-- Counterexample to C11 as stated: built in RandomSelect mode over the two
peers of the demo client, the selector has two entries in `Servers` and none in
`WeightedServers`; built in WeightedRoundRobin mode over the same peers, which
give no weight, its records carry the weight 0, not 1. -/
theorem static_constructor_weighted_only_on_request :
    (∃ s0, NewMultiClientSelector clientGoPeers .RandomSelect 10 0 = .ok s0 ∧
      s0.Servers.length = 2 ∧ s0.WeightedServers = []) ∧
    (∃ s1, NewMultiClientSelector clientGoPeers .WeightedRoundRobin 10 0 = .ok s1 ∧
      s1.WeightedServers.map (fun w => (w.Weight, w.EffectiveWeight)) = [(0, 0), (0, 0)]) := by
  refine ⟨⟨_, rfl, by decide, by decide⟩, ⟨_, rfl, by decide⟩⟩

/-- C11 (amended): on a non-empty peer list `NewMultiClientSelector` returns a
selector over that list.  In WeightedRoundRobin mode its `WeightedServers` has
the length of `Servers`, entry `i` wrapping `Servers[i]` with `Weight` and
`EffectiveWeight` equal to the `Weight` field of that peer as supplied (the
zero value 0 when none was given) and the current weight 0; in every other
mode `WeightedServers` is left empty. -/
theorem static_constructor_weighted_records (servers : List ServerPeer)
    (sm : src.SelectMode) (dailTimeout r0 : Nat) (hne : servers ≠ []) :
    ∃ s0, NewMultiClientSelector servers sm dailTimeout r0 = .ok s0 ∧
      s0.Servers = servers ∧ s0.len = servers.length ∧
      (sm = .WeightedRoundRobin →
        s0.WeightedServers.length = s0.Servers.length ∧
        s0.WeightedServers = servers.map
          (fun ss => { Server := ss, Weight := ss.Weight, EffectiveWeight := ss.Weight,
                       CurrentWeight := 0 }) ∧
        ∀ (i : Nat) (peer : ServerPeer), servers[i]? = some peer →
          s0.WeightedServers[i]? = some
            { Server := peer, Weight := peer.Weight, EffectiveWeight := peer.Weight,
              CurrentWeight := 0 }) ∧
      (sm ≠ .WeightedRoundRobin → s0.WeightedServers = []) := by
  have hpos : 0 < servers.length := List.length_pos.mpr hne
  obtain ⟨i, hi, _, _⟩ := Intn_of_pos (servers.length : Int) r0 (by omega)
  by_cases hw : sm = .WeightedRoundRobin
  · refine ⟨_, by simp only [NewMultiClientSelector, hw, if_true, hi]; rfl, rfl, rfl, ?_, ?_⟩
    · intro _
      refine ⟨by simp, rfl, ?_⟩
      intro k peer hk
      simp [hk]
    · intro h
      exact absurd hw h
  · refine ⟨_, by simp only [NewMultiClientSelector, hw, if_false, hi]; rfl, rfl, rfl, ?_, ?_⟩
    · intro h
      exact absurd h hw
    · intro _
      rfl

/-- C12, evaluated where the code departs from it.  `NewMultiClientSelector`
on the empty peer list panics in `rnd.Intn(0)`, whatever the mode.  The
ZooKeeper `start` on a base path without children sets the cached length to 0
and panics on the modulo by it.  The etcd pull whose three entries are all
flagged inactive empties `Servers`, sets the cached length to 0 and panics on
the modulo by it. -/
theorem empty_peer_set_panics (env : Env) (sm : src.SelectMode) (dailTimeout r : Nat)
    (zkServers : List String) (basePath : String) (get : String → Option String) :
    NewMultiClientSelector [] sm dailTimeout r = .error .invalidArgument ∧
    ((NewZooKeeperClientSelector env zkServers basePath sm dailTimeout false
        { children := [], childrenFailed := false, get := get }).panicked
        = some .divideByZero ∧
      (NewZooKeeperClientSelector env zkServers basePath sm dailTimeout false
        { children := [], childrenFailed := false, get := get }).state.len = 0) ∧
    ((EtcdClientSelector.pullServers demoEnv etcdCursorOnLast etcdAllInactive).panicked
        = some .divideByZero ∧
      (EtcdClientSelector.pullServers demoEnv etcdCursorOnLast etcdAllInactive).state.Servers
        = [] ∧
      (EtcdClientSelector.pullServers demoEnv etcdCursorOnLast etcdAllInactive).state.len
        = 0) := by
  refine ⟨?_, ?_, by decide⟩
  · by_cases hw : sm = .WeightedRoundRobin
    · simp [NewMultiClientSelector, hw, Intn]
    · simp [NewMultiClientSelector, hw, Intn]
  · simp [NewZooKeeperClientSelector, ZooKeeperClientSelector.start, zk_createWeighted_eq]

/-- Counterexample to C18 as stated: on the sample ZooKeeper and Consul
selectors with a non-empty cached set, `Select` in RoundRobin mode ends with
the "not supported SelectMode" error and calls no connection factory, while in
RandomSelect mode it dials a peer. -/
theorem roundRobin_is_not_randomSelect :
    ((ZooKeeperClientSelector.Select demoEnv roundRobinZk [] 0).ret
        = .error (.notSupported .RoundRobin) ∧
      (ZooKeeperClientSelector.Select demoEnv roundRobinZk [] 0).dialed = [] ∧
      (ZooKeeperClientSelector.Select demoEnv (roundRobinZk.SetSelectMode .RandomSelect)
        [] 0).dialed = [("tcp", "127.0.0.1:8972")]) ∧
    ((ConsulClientSelector.Select demoEnv roundRobinConsul [] 0).ret
        = .error (.notSupported .RoundRobin) ∧
      (ConsulClientSelector.Select demoEnv roundRobinConsul [] 0).dialed = [] ∧
      (ConsulClientSelector.Select demoEnv (roundRobinConsul.SetSelectMode .RandomSelect)
        [] 0).dialed = [("tcp", "127.0.0.1:8972")]) := by
  decide

/-- C18 (amended): in the Consul and ZooKeeper selectors, for every selector
value whose cached length is not 0, `Select` in RoundRobin mode ends with the
"not supported SelectMode" error: it draws no index, reads no peer, calls no
connection factory and leaves the selector, its cursor included, as it was
(the branch that advances the cursor repeats the test for RandomSelect and is
never taken). -/
theorem roundRobin_unsupported_in_consul_and_zk (env : Env) (c : ConsulClientSelector)
    (z : ZooKeeperClientSelector) (options : List Opt) (r : Nat)
    (hc : c.len ≠ 0) (hcm : c.SelectMode = .RoundRobin)
    (hz : z.len ≠ 0) (hzm : z.SelectMode = .RoundRobin) :
    ConsulClientSelector.Select env c options r
      = { state := c, dialed := [], ret := .error (.notSupported .RoundRobin) } ∧
    ZooKeeperClientSelector.Select env z options r
      = { state := z, dialed := [], ret := .error (.notSupported .RoundRobin) } := by
  constructor
  · simp [ConsulClientSelector.Select, hc, hcm]
  · simp [ZooKeeperClientSelector.Select, hz, hzm]

/-- Counterexample to C13 as stated: on the static selector over the two demo
peers (weight 1 each) in RoundRobin mode with the cursor on 0, the first of ten
sequential `Select` calls dials peer1, and the ten calls dial peer1, peer0,
peer1, peer0, and so on, not peer0 first. -/
theorem ten_roundRobin_calls_start_with_peer1 :
    (MultiClientSelector.selectSeq demoEnv demoStatic (List.replicate 10 ([], 0))).map
        (fun o => o.dialed)
      = [[("tcp", "127.0.0.1:8973")], [("tcp", "127.0.0.1:8972")],
         [("tcp", "127.0.0.1:8973")], [("tcp", "127.0.0.1:8972")],
         [("tcp", "127.0.0.1:8973")], [("tcp", "127.0.0.1:8972")],
         [("tcp", "127.0.0.1:8973")], [("tcp", "127.0.0.1:8972")],
         [("tcp", "127.0.0.1:8973")], [("tcp", "127.0.0.1:8972")]] ∧
    (MultiClientSelector.selectSeq demoEnv demoStatic (List.replicate 10 ([], 0))).map
        (fun o => o.dialed)
      ≠ [[("tcp", "127.0.0.1:8972")], [("tcp", "127.0.0.1:8973")],
         [("tcp", "127.0.0.1:8972")], [("tcp", "127.0.0.1:8973")],
         [("tcp", "127.0.0.1:8972")], [("tcp", "127.0.0.1:8973")],
         [("tcp", "127.0.0.1:8972")], [("tcp", "127.0.0.1:8973")],
         [("tcp", "127.0.0.1:8972")], [("tcp", "127.0.0.1:8973")]] := by
  decide

/-- C13 (amended): on a static selector over two peers `[peer0, peer1]` of
weight 1 in RoundRobin mode with the cursor on 0, ten sequential `Select` calls
leave the cursors 1, 0, 1, 0, ... and hand to the connection factory peer1,
peer0, peer1, peer0, peer1, peer0, peer1, peer0, peer1, peer0: the cursor is
advanced before the peer is read, so the strict alternation starts with
peer1. -/
theorem ten_roundRobin_calls_alternate (env : Env) (n0 a0 n1 a1 : String)
    (ws : List (Weighted ServerPeer)) (dailTimeout : Nat) (hash : Option HashFn)
    (calls : List (List Opt × Nat)) (hcalls : calls.length = 10) :
    (MultiClientSelector.selectSeq env
        { Servers := [{ Network := n0, Address := a0, Weight := 1 },
                      { Network := n1, Address := a1, Weight := 1 }]
          WeightedServers := ws, SelectMode := .RoundRobin, dailTimeout := dailTimeout
          currentServer := 0, len := 2, HashServiceAndArgs := hash } calls).map
        (fun o => o.state.currentServer) = [1, 0, 1, 0, 1, 0, 1, 0, 1, 0] ∧
    (MultiClientSelector.selectSeq env
        { Servers := [{ Network := n0, Address := a0, Weight := 1 },
                      { Network := n1, Address := a1, Weight := 1 }]
          WeightedServers := ws, SelectMode := .RoundRobin, dailTimeout := dailTimeout
          currentServer := 0, len := 2, HashServiceAndArgs := hash } calls).map
        (fun o => o.dialed)
      = [[(n1, a1)], [(n0, a0)], [(n1, a1)], [(n0, a0)], [(n1, a1)], [(n0, a0)],
         [(n1, a1)], [(n0, a0)], [(n1, a1)], [(n0, a0)]] := by
  obtain ⟨h1, h2⟩ := static_roundRobin_seq env 2 (by decide) calls
    { Servers := [{ Network := n0, Address := a0, Weight := 1 },
                  { Network := n1, Address := a1, Weight := 1 }]
      WeightedServers := ws, SelectMode := .RoundRobin, dailTimeout := dailTimeout
      currentServer := 0, len := 2, HashServiceAndArgs := hash }
    { mode_eq := rfl, len_eq := rfl, servers_len := rfl, cursor_nonneg := le_refl 0,
      cursor_lt := by simp }
  rw [hcalls] at h1
  have hc : (List.range 10).map (fun k : Nat => ((0 : Int) + 1 + (k : Int)) % ((2 : Nat) : Int))
      = [1, 0, 1, 0, 1, 0, 1, 0, 1, 0] := by decide
  simp only at h1
  rw [hc] at h1
  refine ⟨h1, ?_⟩
  have hd : ∀ o ∈ MultiClientSelector.selectSeq env
        { Servers := [{ Network := n0, Address := a0, Weight := 1 },
                      { Network := n1, Address := a1, Weight := 1 }]
          WeightedServers := ws, SelectMode := .RoundRobin, dailTimeout := dailTimeout
          currentServer := 0, len := 2, HashServiceAndArgs := hash } calls,
      o.dialed = (fun c : Int => if c = 1 then [(n1, a1)] else [(n0, a0)])
        o.state.currentServer := by
    intro o ho
    obtain ⟨peer, hp, ho2⟩ := h2 o ho
    have hmem : o.state.currentServer ∈ [(1 : Int), 0, 1, 0, 1, 0, 1, 0, 1, 0] := by
      rw [← h1]
      exact List.mem_map_of_mem _ ho
    have hdial : o.dialed = [(peer.Network, peer.Address)] := by
      rw [ho2]
      rfl
    simp only [List.mem_cons, List.mem_singleton, List.mem_nil_iff, or_false] at hmem
    have hcase : o.state.currentServer = 1 ∨ o.state.currentServer = 0 := by
      rcases hmem with h | h | h | h | h | h | h | h | h | h <;> simp [h]
    rcases hcase with h | h
    · rw [h] at hp
      simp at hp
      simp [hdial, h, ← hp]
    · rw [h] at hp
      simp at hp
      simp [hdial, h, ← hp]
  rw [List.map_congr_left hd]
  have hmm : ∀ l : List (Out MultiClientSelector),
      l.map (fun o => (fun c : Int => if c = 1 then [(n1, a1)] else [(n0, a0)])
        o.state.currentServer)
      = (l.map (fun o => o.state.currentServer)).map
          (fun c : Int => if c = 1 then [(n1, a1)] else [(n0, a0)]) := by
    intro l
    rw [List.map_map]
    rfl
  rw [hmm, h1]
  simp

/-- Four calls of `nextWeighted` on the peers with weights 3 and 1: the winners
have the weights 3, 3, 1, 3 and the sequence is back in its initial state. -/
theorem nextWeightedSeq_three_and_one_period {α : Type} (a b : α) (n : Nat) :
    (nextWeightedSeq (n + 4) (threeAndOne a b)).map (fun w => (w.Server, w.Weight))
      = [(a, 3), (a, 3), (b, 1), (a, 3)]
        ++ (nextWeightedSeq n (threeAndOne a b)).map (fun w => (w.Server, w.Weight)) := by
  rfl

theorem winnerWeight_add_four (i : Nat) : winnerWeight (4 + i) = winnerWeight i := by
  unfold winnerWeight
  have h : (4 + i) % 4 = i % 4 := by omega
  rw [h]

/-- The winners of `n` calls on the peers with weights 3 and 1: the weight-1
peer `b` wins call `i` (counted from 0) when `i mod 4 = 2`, the weight-3 peer
`a` every other call. -/
theorem nextWeightedSeq_three_and_one {α : Type} (a b : α) :
    ∀ n : Nat,
      (nextWeightedSeq n (threeAndOne a b)).map (fun w => (w.Server, w.Weight))
        = (List.range n).map (fun i => (if i % 4 = 2 then b else a, winnerWeight i))
  | 0 => rfl
  | 1 => rfl
  | 2 => rfl
  | 3 => rfl
  | n + 4 => by
    rw [nextWeightedSeq_three_and_one_period, nextWeightedSeq_three_and_one a b n,
      Nat.add_comm n 4, List.range_add, List.map_append, List.map_map]
    congr 1
    apply List.map_congr_left
    intro i _
    have h : (4 + i) % 4 = i % 4 := by omega
    simp only [Function.comp, winnerWeight, h]

theorem winnerWeight_window (k : Nat) :
    [winnerWeight k, winnerWeight (k + 1), winnerWeight (k + 2), winnerWeight (k + 3)].count 3
        = 3 ∧
    [winnerWeight k, winnerWeight (k + 1), winnerWeight (k + 2), winnerWeight (k + 3)].count 1
        = 1 := by
  unfold winnerWeight
  have h : k % 4 = 0 ∨ k % 4 = 1 ∨ k % 4 = 2 ∨ k % 4 = 3 := by omega
  rcases h with h | h | h | h
  · have h1 : (k + 1) % 4 = 1 := by omega
    have h2 : (k + 2) % 4 = 2 := by omega
    have h3 : (k + 3) % 4 = 3 := by omega
    rw [h, h1, h2, h3]
    decide
  · have h1 : (k + 1) % 4 = 2 := by omega
    have h2 : (k + 2) % 4 = 3 := by omega
    have h3 : (k + 3) % 4 = 0 := by omega
    rw [h, h1, h2, h3]
    decide
  · have h1 : (k + 1) % 4 = 3 := by omega
    have h2 : (k + 2) % 4 = 0 := by omega
    have h3 : (k + 3) % 4 = 1 := by omega
    rw [h, h1, h2, h3]
    decide
  · have h1 : (k + 1) % 4 = 0 := by omega
    have h2 : (k + 2) % 4 = 1 := by omega
    have h3 : (k + 3) % 4 = 2 := by omega
    rw [h, h1, h2, h3]
    decide

theorem winnerWeight_not_twice_one (i : Nat) :
    ¬ (winnerWeight i = 1 ∧ winnerWeight (i + 1) = 1) := by
  unfold winnerWeight
  rintro ⟨h1, h2⟩
  have e1 : i % 4 = 2 := by
    by_contra h
    rw [if_neg h] at h1
    exact absurd h1 (by decide)
  have e2 : (i + 1) % 4 = 2 := by
    by_contra h
    rw [if_neg h] at h2
    exact absurd h2 (by decide)
  omega

theorem nextWeightedSeq_weights {α : Type} (a b : α) (n : Nat) :
    (nextWeightedSeq n (threeAndOne a b)).map (fun w => w.Weight)
      = (List.range n).map winnerWeight := by
  have h := congrArg (List.map Prod.snd) (nextWeightedSeq_three_and_one a b n)
  simpa [List.map_map, Function.comp_def] using h

/-- C15: `nextWeighted` applied repeatedly to two peers with the weights 3 and
1, all current weights 0 at first.  The first four winners are the weight-3
peer, the weight-3 peer, the weight-1 peer, the weight-3 peer, and the sequence
is then back in its initial state; the winner of call `i` (from 0) is the
weight-1 peer exactly when `i mod 4 = 2`.  So among any 4 consecutive calls
(those after the first `k`, for every `k`, in particular every block of 4
counted from the initial state) the weight-3 peer wins exactly 3 times and the
weight-1 peer exactly once, and in no run of calls does the weight-1 peer win
two calls in a row. -/
theorem weighted_three_and_one_interleaves {α : Type} (a b : α) (n k : Nat) :
    (nextWeightedSeq 4 (threeAndOne a b)).map (fun w => (w.Server, w.Weight))
      = [(a, 3), (a, 3), (b, 1), (a, 3)] ∧
    nextWeightedAfter 4 (threeAndOne a b) = threeAndOne a b ∧
    (nextWeightedSeq n (threeAndOne a b)).map (fun w => (w.Server, w.Weight))
      = (List.range n).map (fun i => (if i % 4 = 2 then b else a, winnerWeight i)) ∧
    ((((nextWeightedSeq (k + 4) (threeAndOne a b)).drop k).map (fun w => w.Weight)).count 3
        = 3 ∧
      (((nextWeightedSeq (k + 4) (threeAndOne a b)).drop k).map (fun w => w.Weight)).count 1
        = 1) ∧
    List.Chain' (fun x y : Int => ¬ (x = 1 ∧ y = 1))
      ((nextWeightedSeq n (threeAndOne a b)).map (fun w => w.Weight)) := by
  refine ⟨rfl, rfl, nextWeightedSeq_three_and_one a b n, ?_, ?_⟩
  · have hw : ((nextWeightedSeq (k + 4) (threeAndOne a b)).drop k).map (fun w => w.Weight)
        = [winnerWeight k, winnerWeight (k + 1), winnerWeight (k + 2), winnerWeight (k + 3)] := by
      rw [List.map_drop, nextWeightedSeq_weights, List.range_add, List.map_append,
        List.drop_left' (by simp)]
      rfl
    rw [hw]
    exact winnerWeight_window k
  · rw [nextWeightedSeq_weights, List.chain'_map]
    cases n with
    | zero => exact List.chain'_nil
    | succ m =>
      rw [List.chain'_range_succ]
      intro i _
      exact winnerWeight_not_twice_one i

/-- In ConsistentHash mode the static `Select` installs the default hash when
none is set, stores the hashed value as the cursor and hands the peer at that
index to the connection factory, provided the hash in use maps the cached
length and the options to an index of `Servers`. -/
theorem static_consistentHash_dials_hashed_index (env : Env) (s : MultiClientSelector)
    (options : List Opt) (r : Nat) (hlen : s.len ≠ 0)
    (hm : s.SelectMode = .ConsistentHash)
    (h0 : 0 ≤ (s.HashServiceAndArgs.getD env.jumpHash) s.len options)
    (h1 : (s.HashServiceAndArgs.getD env.jumpHash) s.len options < s.Servers.length) :
    ∃ peer, s.Servers[((s.HashServiceAndArgs.getD env.jumpHash) s.len options).toNat]?
        = some peer ∧
      MultiClientSelector.Select env s options r
        = connect env
            { s with
              HashServiceAndArgs := some (s.HashServiceAndArgs.getD env.jumpHash)
              currentServer := (s.HashServiceAndArgs.getD env.jumpHash) s.len options }
            peer.Network peer.Address := by
  obtain ⟨peer, hp1, hp2, _⟩ := goIndex_of_lt s.Servers _ h0 h1
  refine ⟨peer, hp2, ?_⟩
  unfold MultiClientSelector.Select
  rw [if_neg hlen, if_neg (by rw [hm]; decide), if_neg (by rw [hm]; decide), if_pos hm]
  cases hh : s.HashServiceAndArgs with
  | none =>
    rw [hh] at hp1
    have hp : goIndex s.Servers (env.jumpHash s.len options) = some peer := hp1
    simp [MultiClientSelector.dialCurrent, hp]
  | some f =>
    rw [hh] at hp1
    have hp : goIndex s.Servers (f s.len options) = some peer := hp1
    simp [MultiClientSelector.dialCurrent, hp]

/-! ## The theorems at sample inputs -/

/-- C2 at four selectors with cached length 0; the Consul one holds a peer. -/
theorem select_on_empty_is_noAvailableService_witness :
    (emptyStatic.len = 0 ∧ demoConsul.len = 0 ∧ emptyEtcd.len = 0 ∧ emptyZk.len = 0) ∧
    (MultiClientSelector.Select demoEnv emptyStatic [Opt.atom "Arith.Mul"] 5
        = { state := emptyStatic, dialed := [], ret := .error .noAvailableService } ∧
      ConsulClientSelector.Select demoEnv demoConsul [Opt.atom "Arith.Mul"] 5
        = { state := demoConsul, dialed := [], ret := .error .noAvailableService } ∧
      EtcdClientSelector.Select demoEnv emptyEtcd [Opt.atom "Arith.Mul"] 5
        = { state := emptyEtcd, dialed := [], ret := .error .noAvailableService } ∧
      ZooKeeperClientSelector.Select demoEnv emptyZk [Opt.atom "Arith.Mul"] 5
        = { state := emptyZk, dialed := [], ret := .error .noAvailableService }) :=
  ⟨⟨rfl, rfl, rfl, rfl⟩,
    select_on_empty_is_noAvailableService demoEnv [Opt.atom "Arith.Mul"] 5 emptyStatic
      demoConsul emptyEtcd emptyZk rfl rfl rfl rfl⟩

/-- C10 at a static selector over the demo peers in a mode outside the four. -/
theorem static_select_notSupported_iff_witness :
    oddModeStatic.len ≠ 0 ∧
    (((∃ sm, (MultiClientSelector.Select demoEnv oddModeStatic [] 0).ret
          = .error (.notSupported sm)) ↔
        (oddModeStatic.SelectMode ≠ .RandomSelect ∧ oddModeStatic.SelectMode ≠ .RoundRobin ∧
          oddModeStatic.SelectMode ≠ .ConsistentHash ∧
          oddModeStatic.SelectMode ≠ .WeightedRoundRobin)) ∧
      ((∃ sm, (MultiClientSelector.Select demoEnv oddModeStatic [] 0).ret
          = .error (.notSupported sm)) →
        (MultiClientSelector.Select demoEnv oddModeStatic [] 0).dialed = [] ∧
        (MultiClientSelector.Select demoEnv oddModeStatic [] 0).state = oddModeStatic ∧
        (MultiClientSelector.Select demoEnv oddModeStatic [] 0).ret
          = .error (.notSupported oddModeStatic.SelectMode))) :=
  ⟨by decide, static_select_notSupported_iff demoEnv oddModeStatic [] 0 (by decide)⟩

/-- C1 at the demo peers in WeightedRoundRobin mode and three calls. -/
theorem static_select_index_in_bounds_witness :
    (demoPeers ≠ [] ∧
      ((src.SelectMode.WeightedRoundRobin = .RandomSelect) ∨
        (src.SelectMode.WeightedRoundRobin = .RoundRobin) ∨
        (src.SelectMode.WeightedRoundRobin = .WeightedRoundRobin))) ∧
    ∃ s0, NewMultiClientSelector demoPeers .WeightedRoundRobin 10 7 = .ok s0 ∧
      ∀ o ∈ MultiClientSelector.selectSeq demoEnv s0 [([], 0), ([], 1), ([], 2)],
        o.state.Servers = demoPeers ∧ (∀ p, o.ret ≠ .panicked p) ∧
        ∃ (i : Nat) (peer : ServerPeer), i < demoPeers.length ∧ demoPeers[i]? = some peer ∧
          o = connect demoEnv o.state peer.Network peer.Address ∧
          (src.SelectMode.WeightedRoundRobin ≠ .WeightedRoundRobin →
            o.state.currentServer = i) :=
  ⟨⟨by decide, by decide⟩,
    static_select_index_in_bounds demoEnv demoPeers .WeightedRoundRobin 10 7
      [([], 0), ([], 1), ([], 2)] (by decide) (by decide)⟩

/-- C3 at a static and an etcd selector over two peers and two calls. -/
theorem roundRobin_visits_each_index_once_witness :
    (1 ≤ 2 ∧ StaticRoundRobin 2 demoStatic ∧ EtcdRoundRobin 2 demoEtcd ∧
      [(([] : List Opt), 0), ([], 0)].length = 2) ∧
    ((∀ options r,
        StaticRoundRobin 2 (MultiClientSelector.Select demoEnv demoStatic options r).state ∧
        ∃ peer, demoStatic.Servers[((demoStatic.currentServer + 1) % ((2 : Nat) : Int)).toNat]?
            = some peer ∧
          MultiClientSelector.Select demoEnv demoStatic options r
            = connect demoEnv
                { demoStatic with
                  currentServer := (demoStatic.currentServer + 1) % ((2 : Nat) : Int) }
                peer.Network peer.Address) ∧
      (∀ options r,
        EtcdRoundRobin 2 (EtcdClientSelector.Select demoEnv demoEtcd options r).state ∧
        ∃ server, demoEtcd.Servers[((demoEtcd.currentServer + 1) % ((2 : Nat) : Int)).toNat]?
            = some server ∧
          EtcdClientSelector.Select demoEnv demoEtcd options r
            = connectPeer demoEnv
                { demoEtcd with
                  currentServer := (demoEtcd.currentServer + 1) % ((2 : Nat) : Int) }
                server) ∧
      ((MultiClientSelector.selectSeq demoEnv demoStatic [([], 0), ([], 0)]).map
          (fun o => o.state.currentServer)).Perm ((List.range 2).map Int.ofNat) ∧
      ((EtcdClientSelector.selectSeq demoEnv demoEtcd [([], 0), ([], 0)]).map
          (fun o => o.state.currentServer)).Perm ((List.range 2).map Int.ofNat) ∧
      (∀ o ∈ MultiClientSelector.selectSeq demoEnv demoStatic [([], 0), ([], 0)],
        ∃ peer, demoStatic.Servers[o.state.currentServer.toNat]? = some peer ∧
          o = connect demoEnv o.state peer.Network peer.Address) ∧
      (∀ o ∈ EtcdClientSelector.selectSeq demoEnv demoEtcd [([], 0), ([], 0)],
        ∃ server, demoEtcd.Servers[o.state.currentServer.toNat]? = some server ∧
          o = connectPeer demoEnv o.state server)) :=
  ⟨⟨by decide,
      { mode_eq := rfl, len_eq := rfl, servers_len := rfl, cursor_nonneg := by decide,
        cursor_lt := by decide },
      { mode_eq := rfl, len_eq := rfl, servers_len := rfl, cursor_nonneg := by decide,
        cursor_lt := by decide },
      rfl⟩,
    roundRobin_visits_each_index_once demoEnv 2 demoStatic demoEtcd [([], 0), ([], 0)]
      (by decide)
      { mode_eq := rfl, len_eq := rfl, servers_len := rfl, cursor_nonneg := by decide,
        cursor_lt := by decide }
      { mode_eq := rfl, len_eq := rfl, servers_len := rfl, cursor_nonneg := by decide,
        cursor_lt := by decide }
      rfl⟩

/-- C6 at an etcd and a ZooKeeper selector over two peers, one index each. -/
theorem removeInactiveServers_keeps_the_others_witness :
    (([1] : List Nat).Pairwise (fun a b => a < b) ∧
      ([0] : List Nat).Pairwise (fun a b => a < b) ∧
      (∀ k ∈ ([1] : List Nat), k < demoEtcd.Servers.length) ∧
      (∀ j ∈ ([0] : List Nat), j < demoZk.Servers.length) ∧
      demoEtcd.WeightedServers.map (fun w => w.Server) = demoEtcd.Servers ∧
      demoZk.WeightedServers.map (fun w => w.Server) = demoZk.Servers) ∧
    ((demoEtcd.removeInactiveServers [1]
          = { state := { demoEtcd with
                Servers := keepOutside [1] demoEtcd.Servers,
                WeightedServers := keepOutside [1] demoEtcd.WeightedServers },
              panicked := none } ∧
        (keepOutside [1] demoEtcd.Servers).length = demoEtcd.Servers.length - [1].length ∧
        (keepOutside [1] demoEtcd.WeightedServers).length
          = demoEtcd.Servers.length - [1].length ∧
        (keepOutside [1] demoEtcd.WeightedServers).map (fun w => w.Server)
          = keepOutside [1] demoEtcd.Servers) ∧
      (demoZk.removeInactiveServers [0]
          = { state := { demoZk with
                Servers := keepOutside [0] demoZk.Servers,
                WeightedServers := keepOutside [0] demoZk.WeightedServers },
              panicked := none } ∧
        (keepOutside [0] demoZk.Servers).length = demoZk.Servers.length - [0].length ∧
        (keepOutside [0] demoZk.WeightedServers).length = demoZk.Servers.length - [0].length ∧
        (keepOutside [0] demoZk.WeightedServers).map (fun w => w.Server)
          = keepOutside [0] demoZk.Servers)) :=
  ⟨⟨by simp, by simp, by decide, by decide, rfl, rfl⟩,
    removeInactiveServers_keeps_the_others demoEtcd demoZk [1] [0] (by simp) (by simp)
      (by decide) (by decide) rfl rfl⟩

/-- C7 (amended) at a listing of two entries, the second flagged inactive. -/
theorem etcd_pullServers_keeps_active_entries_witness :
    etcdOneInactive ≠ [] ∧
    ((EtcdClientSelector.pullServers demoEnv emptyEtcd (.resp (some etcdOneInactive))).state.Servers
        = (etcdOneInactive.filter (fun n => countsAsActive demoEnv n.Value)).map
            (fun n => strings.TrimPrefix n.Key (emptyEtcd.BasePath ++ "/")) ∧
      (EtcdClientSelector.pullServers demoEnv emptyEtcd
          (.resp (some etcdOneInactive))).state.WeightedServers.map (fun w => w.Server)
        = (etcdOneInactive.filter (fun n => countsAsActive demoEnv n.Value)).map
            (fun n => strings.TrimPrefix n.Key (emptyEtcd.BasePath ++ "/")) ∧
      ((∃ n ∈ etcdOneInactive, countsAsActive demoEnv n.Value = true) →
        (EtcdClientSelector.pullServers demoEnv emptyEtcd
          (.resp (some etcdOneInactive))).panicked = none)) :=
  ⟨by decide,
    (etcd_pullServers_keeps_active_entries demoEnv emptyEtcd etcdOneInactive (by decide)).2⟩

/-- C4 (amended) at sample selectors and listings; the ZooKeeper selector of
the last part is the misaligned `zkGrown`, switched to WeightedRoundRobin. -/
theorem registry_selectors_index_alignment_witness :
    (zkGrown.state.SetSelectMode .WeightedRoundRobin).SelectMode = .WeightedRoundRobin ∧
    ((EtcdClientSelector.watch demoEnv
          (NewEtcdClientSelector demoEnv ["127.0.0.1:2379"] "/rpct/Arith" .RoundRobin 10 false
            (.resp (some etcdOneInactive))).state [etcdAllInactive]).state.len
        = (EtcdClientSelector.watch demoEnv
          (NewEtcdClientSelector demoEnv ["127.0.0.1:2379"] "/rpct/Arith" .RoundRobin 10 false
            (.resp (some etcdOneInactive))).state [etcdAllInactive]).state.Servers.length) ∧
    ((ZooKeeperClientSelector.watchPath demoEnv
          (zkGrown.state.SetSelectMode .WeightedRoundRobin)
          [zkThirdInactive]).state.Servers.length
        = (ZooKeeperClientSelector.watchPath demoEnv
          (zkGrown.state.SetSelectMode .WeightedRoundRobin)
          [zkThirdInactive]).state.WeightedServers.length ∧
      (ZooKeeperClientSelector.watchPath demoEnv
          (zkGrown.state.SetSelectMode .WeightedRoundRobin)
          [zkThirdInactive]).state.WeightedServers.map (fun w => w.Server)
        = (ZooKeeperClientSelector.watchPath demoEnv
          (zkGrown.state.SetSelectMode .WeightedRoundRobin)
          [zkThirdInactive]).state.Servers) :=
  ⟨rfl,
    (registry_selectors_index_alignment demoEnv ["127.0.0.1:2379"] "/rpct/Arith" .RoundRobin 10
      false (.resp (some etcdOneInactive)) [etcdAllInactive] ["127.0.0.1:2181"] "/rpct/Arith"
      .RoundRobin (zkListing threePeers (fun _ => "")) [zkThirdInactive]
      (zkGrown.state.SetSelectMode .WeightedRoundRobin) zkThirdInactive [] rfl).1.2.1,
    (registry_selectors_index_alignment demoEnv ["127.0.0.1:2379"] "/rpct/Arith" .RoundRobin 10
      false (.resp (some etcdOneInactive)) [etcdAllInactive] ["127.0.0.1:2181"] "/rpct/Arith"
      .RoundRobin (zkListing threePeers (fun _ => "")) [zkThirdInactive]
      (zkGrown.state.SetSelectMode .WeightedRoundRobin) zkThirdInactive [] rfl).2.2.2⟩

/-- C11 (amended) at the two peers of the demo client, which give no weight,
in WeightedRoundRobin mode. -/
theorem static_constructor_weighted_records_witness :
    clientGoPeers ≠ [] ∧
    ∃ s0, NewMultiClientSelector clientGoPeers .WeightedRoundRobin 10 3 = .ok s0 ∧
      s0.Servers = clientGoPeers ∧ s0.len = clientGoPeers.length ∧
      (src.SelectMode.WeightedRoundRobin = .WeightedRoundRobin →
        s0.WeightedServers.length = s0.Servers.length ∧
        s0.WeightedServers = clientGoPeers.map
          (fun ss => { Server := ss, Weight := ss.Weight, EffectiveWeight := ss.Weight,
                       CurrentWeight := 0 }) ∧
        ∀ (i : Nat) (peer : ServerPeer), clientGoPeers[i]? = some peer →
          s0.WeightedServers[i]? = some
            { Server := peer, Weight := peer.Weight, EffectiveWeight := peer.Weight,
              CurrentWeight := 0 }) ∧
      (src.SelectMode.WeightedRoundRobin ≠ .WeightedRoundRobin → s0.WeightedServers = []) :=
  ⟨by decide, static_constructor_weighted_records clientGoPeers .WeightedRoundRobin 10 3
    (by decide)⟩

/-- C13 (amended) at the two servers of the demo client and ten calls. -/
theorem ten_roundRobin_calls_alternate_witness :
    (List.replicate 10 (([] : List Opt), 0)).length = 10 ∧
    ((MultiClientSelector.selectSeq demoEnv
        { Servers := [{ Network := "tcp", Address := "127.0.0.1:8972", Weight := 1 },
                      { Network := "tcp", Address := "127.0.0.1:8973", Weight := 1 }]
          WeightedServers := [], SelectMode := .RoundRobin, dailTimeout := 10
          currentServer := 0, len := 2, HashServiceAndArgs := none }
        (List.replicate 10 ([], 0))).map (fun o => o.state.currentServer)
        = [1, 0, 1, 0, 1, 0, 1, 0, 1, 0] ∧
      (MultiClientSelector.selectSeq demoEnv
        { Servers := [{ Network := "tcp", Address := "127.0.0.1:8972", Weight := 1 },
                      { Network := "tcp", Address := "127.0.0.1:8973", Weight := 1 }]
          WeightedServers := [], SelectMode := .RoundRobin, dailTimeout := 10
          currentServer := 0, len := 2, HashServiceAndArgs := none }
        (List.replicate 10 ([], 0))).map (fun o => o.dialed)
        = [[("tcp", "127.0.0.1:8973")], [("tcp", "127.0.0.1:8972")],
           [("tcp", "127.0.0.1:8973")], [("tcp", "127.0.0.1:8972")],
           [("tcp", "127.0.0.1:8973")], [("tcp", "127.0.0.1:8972")],
           [("tcp", "127.0.0.1:8973")], [("tcp", "127.0.0.1:8972")],
           [("tcp", "127.0.0.1:8973")], [("tcp", "127.0.0.1:8972")]]) :=
  ⟨rfl, ten_roundRobin_calls_alternate demoEnv "tcp" "127.0.0.1:8972" "tcp" "127.0.0.1:8973"
    [] 10 none (List.replicate 10 ([], 0)) rfl⟩

/-- C17 at an etcd entry and a ZooKeeper child whose metadata is `weight=5`. -/
theorem valid_weight_is_dropped_witness :
    (demoEnv.parseQuery "weight=5" = some [("weight", "5")] ∧
      Values.Get [("weight", "5")] "weight" ≠ "" ∧
      (demoEnv.atoi (Values.Get [("weight", "5")] "weight")) = (5, false) ∧
      etcdWeightFive ∈ [etcdWeightFive] ∧ etcdWeightFive.Value = "weight=5" ∧
      countsAsActive demoEnv "weight=5" = true) ∧
    ((∀ server, weighEntry demoEnv server (some "weight=5")
        = { Server := server, Weight := 1, EffectiveWeight := 1, CurrentWeight := 0 }) ∧
      ({ Server := strings.TrimPrefix etcdWeightFive.Key (emptyEtcd.BasePath ++ "/"),
         Weight := 1, EffectiveWeight := 1, CurrentWeight := 0 } : Weighted String)
        ∈ (EtcdClientSelector.pullServers demoEnv emptyEtcd
            (.resp (some [etcdWeightFive]))).state.WeightedServers ∧
      ({ Server := "tcp@127.0.0.1:8972", Weight := 1, EffectiveWeight := 1,
         CurrentWeight := 0 } : Weighted String)
        ∈ (ZooKeeperClientSelector.start demoEnv emptyZk false
            (zkListing ["tcp@127.0.0.1:8972"] (fun _ => "weight=5"))).state.WeightedServers) :=
  ⟨⟨by decide, by decide, by decide, by simp, rfl, by decide⟩,
    (valid_weight_is_dropped demoEnv "weight=5" [("weight", "5")] emptyEtcd [etcdWeightFive]
      etcdWeightFive emptyZk (zkListing ["tcp@127.0.0.1:8972"] (fun _ => "weight=5"))
      "tcp@127.0.0.1:8972" (by decide) (by decide) (by decide) (by simp) rfl (by decide)
      (by simp [zkListing]) rfl).1,
    (valid_weight_is_dropped demoEnv "weight=5" [("weight", "5")] emptyEtcd [etcdWeightFive]
      etcdWeightFive emptyZk (zkListing ["tcp@127.0.0.1:8972"] (fun _ => "weight=5"))
      "tcp@127.0.0.1:8972" (by decide) (by decide) (by decide) (by simp) rfl (by decide)
      (by simp [zkListing]) rfl).2.2.1,
    (valid_weight_is_dropped demoEnv "weight=5" [("weight", "5")] emptyEtcd [etcdWeightFive]
      etcdWeightFive emptyZk (zkListing ["tcp@127.0.0.1:8972"] (fun _ => "weight=5"))
      "tcp@127.0.0.1:8972" (by decide) (by decide) (by decide) (by simp) rfl (by decide)
      (by simp [zkListing]) rfl).2.2.2⟩

/-- C18 (amended) at the sample Consul and ZooKeeper selectors in RoundRobin
mode. -/
theorem roundRobin_unsupported_in_consul_and_zk_witness :
    (roundRobinConsul.len ≠ 0 ∧ roundRobinConsul.SelectMode = .RoundRobin ∧
      roundRobinZk.len ≠ 0 ∧ roundRobinZk.SelectMode = .RoundRobin) ∧
    (ConsulClientSelector.Select demoEnv roundRobinConsul [] 1
        = { state := roundRobinConsul, dialed := [],
            ret := .error (.notSupported .RoundRobin) } ∧
      ZooKeeperClientSelector.Select demoEnv roundRobinZk [] 1
        = { state := roundRobinZk, dialed := [],
            ret := .error (.notSupported .RoundRobin) }) :=
  ⟨⟨by decide, rfl, by decide, rfl⟩,
    roundRobin_unsupported_in_consul_and_zk demoEnv roundRobinConsul roundRobinZk [] 1
      (by decide) rfl (by decide) rfl⟩

end Rpct
